import Mathlib

/-!
Verification of the `ds_salaries_predict` preprocessing pipeline
(`src/ds_salaries_predict/preprocess.py`) against its specification.

The pandas `DataFrame` is modelled shallowly: a list of column names plus a
list of rows, each row carrying its integer index label (pandas row label)
and a list of cells.  Cell values are strings, integers, floats (rationals)
or the missing value `NaN`.  Row labels matter: `dropna` / `drop_duplicates`
keep the surviving rows' original labels, and `pd.concat(..., axis=1)`
aligns on labels, which is observable in `preprocess_title`.

Python/pandas/scipy/sklearn behaviour modelled here:
- `DataFrame.dropna()` removes every row containing a missing value.
- `DataFrame.drop_duplicates()` removes later rows whose full cell list
  equals an earlier row's (keep="first"), labels not compared.
- `DataFrame.drop(columns=..., errors="ignore")` removes the named columns,
  silently skipping absent ones.
- `Series.map(dict)` sends keys through the dict and everything else
  (including `NaN`) to `NaN`.
- `pd.get_dummies(df, columns=[c], prefix=p, drop_first=True, dtype=int)`
  removes column `c`, appends one 0/1 indicator column per category except
  the first in sorted order; categories are the distinct string values.
- `DataFrame.set_index(col).loc[key, year]` looks up the first row whose
  `col` value equals `key` and returns its `year` cell; a missing row or a
  missing column raises (modelled as `PErr.resolution`).
- `str(x)` on an int renders the decimal digits; on a float with integral
  value it renders `n.0` (`pyStr`).
- `Series.astype(int)` keeps ints, truncates floats toward zero, parses
  integer-literal strings, and fails on anything else.
- `scipy.stats.mstats.winsorize(a, limits=[0.01, 0.01])` (inclusive
  defaults): with `n = len(a)`, `k = int(0.01 * n)`, and `idx = argsort(a)`,
  the entries at ranks `< k` are set to `a[idx[k]]` and the entries at ranks
  `>= n - k` are set to `a[idx[n - k - 1]]` (`winsorizeScipy`; the float
  computation `int(0.01 * n)` is modelled as `n / 100`).
- `TfidfVectorizer` tokenizes by lowercasing and taking maximal runs of
  word characters of length at least 2, builds the sorted distinct
  vocabulary on `fit`, and on `transform` weights each (document, term)
  pair by `count * idf(term)` with a strictly positive `idf`; sklearn's
  smooth idf `ln((1+n)/(1+df))+1` is transcendental, so the fitted model
  carries the positive rational surrogate `(1+n)/(1+df)` — every property
  proved below depends only on positivity and on the zero pattern of the
  weights, which the surrogate preserves; the per-row l2 normalization (a
  strictly positive scaling, likewise zero-pattern preserving) is omitted
  for the same reason.
- `pd.concat([d1, d2], axis=1)` keeps the shared index when the two index
  lists are equal, otherwise takes the sorted union of the labels, filling
  cells of a frame that lacks a label with `NaN`.
-/

set_option maxRecDepth 8000

namespace DsSalaries

/-- A pandas cell value: `NaN`, a string, an int64, or a float64
(floats modelled as rationals; only integral floats are rendered by
`pyStr`, the single place where the int/float distinction is observable). -/
inductive Value where
  | na : Value
  | str (s : String) : Value
  | int (n : Int) : Value
  | float (q : ℚ) : Value
deriving DecidableEq

/-- Numeric reading of a cell, `none` on strings and `NaN`. -/
def Value.toRat? : Value → Option ℚ
  | .int n => some (n : ℚ)
  | .float q => some q
  | _ => none

/-- Numeric reading of a cell with default 0. -/
def Value.toRatD (v : Value) : ℚ := (v.toRat?).getD 0

/-- Python `str` on a cell as it appears in `str(x["work_year"])`:
ints render their digits, floats with integral value render as `n.0`. -/
def pyStr : Value → String
  | .int n => toString n
  | .float q => if q.den = 1 then toString q.num ++ ".0" else toString q
  | .str s => s
  | .na => "nan"

/-- Pack a rational back into a numeric cell (ints stay ints). -/
def mkNum (q : ℚ) : Value := if q.den = 1 then .int q.num else .float q

/-- A pandas DataFrame: column names plus rows, each row = (index label,
cells), cells positionally aligned with `cols`. -/
structure DataFrame where
  cols : List String
  rows : List (Nat × List Value)
deriving DecidableEq

/-- Cell at position `i` of a row (missing positions read as `NaN`). -/
def getCell (cells : List Value) (i : Nat) : Value := cells.getD i .na

/-- Position of a column name, `none` when absent (pandas `KeyError`). -/
def colIdx (d : DataFrame) (c : String) : Option Nat :=
  d.cols.findIdx? (fun x => x = c)

/-- Keep the entries of `xs` whose mask bit is true. -/
def filterMask {α : Type} : List Bool → List α → List α
  | b :: bs, x :: xs => if b then x :: filterMask bs xs else filterMask bs xs
  | _, _ => []

/-- The column of cells at position `i`. -/
def colVals (d : DataFrame) (i : Nat) : List Value :=
  d.rows.map (fun r => getCell r.2 i)

/-- Cell of the row labelled `lab` in column named `c`. -/
def cellAt (d : DataFrame) (lab : Nat) (c : String) : Value :=
  match colIdx d c, d.rows.find? (fun r => decide (r.1 = lab)) with
  | some i, some r => getCell r.2 i
  | _, _ => .na

/-! ### Record Cleaner (`clean_data`) -/

/-- `DataFrame.dropna()`: remove rows containing a missing value. -/
def dropna (d : DataFrame) : DataFrame :=
  { d with rows := d.rows.filter (fun r => !decide (Value.na ∈ r.2)) }

/-- `drop_duplicates(keep="first")` on rows, accumulating seen cell lists. -/
def dedupRowsAux : List (Nat × List Value) → List (List Value) → List (Nat × List Value)
  | [], _ => []
  | r :: rs, seen =>
      if r.2 ∈ seen then dedupRowsAux rs seen
      else r :: dedupRowsAux rs (r.2 :: seen)

/-- `DataFrame.drop_duplicates()`: keep the first of equal rows. -/
def dedupRows (rows : List (Nat × List Value)) : List (Nat × List Value) :=
  dedupRowsAux rows []

/-- `DataFrame.drop(columns=names, errors="ignore")`. -/
def dropColumns (d : DataFrame) (names : List String) : DataFrame :=
  let mask := d.cols.map (fun c => !decide (c ∈ names))
  { cols := filterMask mask d.cols
    rows := d.rows.map (fun r => (r.1, filterMask mask r.2)) }

/-- `clean_data`: dropna, then drop_duplicates, then drop the
`salary` / `salary_currency` columns (in that source order). -/
def clean_data (d : DataFrame) : DataFrame :=
  let d1 := dropna d
  let d2 : DataFrame := { d1 with rows := dedupRows d1.rows }
  dropColumns d2 ["salary", "salary_currency"]

/-- State of the caller's argument after `clean_data` returns: the source
only rebinds its local `data` (`dropna`, `drop_duplicates`, `drop` all
return new frames), so the caller's frame is untouched. -/
def clean_data_arg (d : DataFrame) : DataFrame := d

/-! ### Errors -/

/-- Failures surfaced by the pipeline: a missing required column
(pandas `KeyError` on column access), a (country, year) pair absent from
the reference table, or a value not coercible to a number. -/
inductive PErr where
  | validation (col : String) : PErr
  | resolution (code : String) (year : String) : PErr
  | typeErr : PErr
deriving DecidableEq

/-- Effectful map over a list, failing on the first failing element
(the `Except` analogue of evaluating a pandas `apply` row by row). -/
def exceptMap {α β : Type} (f : α → Except PErr β) : List α → Except PErr (List β)
  | [] => .ok []
  | x :: xs =>
      match f x with
      | .error e => .error e
      | .ok y =>
          match exceptMap f xs with
          | .error e => .error e
          | .ok ys => .ok (y :: ys)

/-! ### Categorical Encoder (`process_categoricals`) -/

/-- `Series.map(dict)`: dict keys map through, everything else to `NaN`. -/
def mapOrdVal (m : List (String × Int)) : Value → Value
  | .str s => match m.lookup s with
      | some n => .int n
      | none => .na
  | _ => .na

/-- `data[c] = data[c].map(f)`: reading a missing column raises. -/
def mapColumn (d : DataFrame) (c : String) (f : Value → Value) : Except PErr DataFrame :=
  match colIdx d c with
  | none => .error (.validation c)
  | some i =>
      .ok { d with rows := d.rows.map (fun r => (r.1, r.2.set i (f (getCell r.2 i)))) }

/-- Lexicographic strict order on character lists by code point
(Python's string comparison). -/
def charsLtb : List Char → List Char → Bool
  | [], [] => false
  | [], _ :: _ => true
  | _ :: _, [] => false
  | c :: cs, d :: ds =>
      c.toNat < d.toNat || (c.toNat = d.toNat && charsLtb cs ds)

/-- `a <= b` on strings, by code points. -/
def strLeb (a b : String) : Bool := !charsLtb b.data a.data

/-- Sorted distinct strings (pandas Categorical categories order). -/
def sortDedupStr (l : List String) : List String :=
  (l.insertionSort (fun a b => strLeb a b = true)).dedup

/-- The string values present in column `i`. -/
def strCellsOf (d : DataFrame) (i : Nat) : List String :=
  d.rows.filterMap (fun r =>
    match getCell r.2 i with
    | .str s => some s
    | _ => none)

/-- `pd.get_dummies(d, columns=[c], prefix=pre, drop_first=True, dtype=int)`:
drop the first sorted category, remove column `c`, append the indicator
columns at the end. -/
def getDummies (d : DataFrame) (c : String) (pre : String) : Except PErr DataFrame :=
  match colIdx d c with
  | none => .error (.validation c)
  | some i =>
      let cats := (sortDedupStr (strCellsOf d i)).drop 1
      let mask := d.cols.map (fun x => !decide (x = c))
      .ok { cols := filterMask mask d.cols ++ cats.map (fun v => pre ++ "_" ++ v)
            rows := d.rows.map (fun r =>
              (r.1, filterMask mask r.2 ++
                cats.map (fun v => Value.int (if getCell r.2 i = .str v then 1 else 0)))) }

/-- State of the caller's argument after `process_categoricals`: the two
ordinal `map` assignments mutate the caller's frame in place; the final
`pd.get_dummies` only rebinds the local `data`. -/
def process_categoricals_arg (d : DataFrame) : Except PErr DataFrame := do
  let d1 ← mapColumn d "company_size" (mapOrdVal [("S", 1), ("M", 2), ("L", 3)])
  mapColumn d1 "experience_level" (mapOrdVal [("EN", 1), ("MI", 2), ("SE", 3), ("EX", 4)])

/-- `process_categoricals`: ordinal-encode `company_size` and
`experience_level`, one-hot encode `employment_type` with the first sorted
category dropped. -/
def process_categoricals (d : DataFrame) : Except PErr DataFrame := do
  let d2 ← process_categoricals_arg d
  getDummies d2 "employment_type" "employment_type"

/-! ### Economic-Indicator Resolver (`preprocess_country`) -/

/-- `gdp_data.set_index("alpha_2").loc[code, year]`: find the row keyed by
`code` and read its `year` column; `none` on a missing row or column. -/
def gdpLookup (gdp : DataFrame) (code : Value) (year : String) : Option Value := do
  let ai ← colIdx gdp "alpha_2"
  let yi ← colIdx gdp year
  let r ← gdp.rows.find? (fun r => decide (getCell r.2 ai = code))
  pure (getCell r.2 yi)

/-- One evaluation of the `apply` lambda: resolve a row's country cell at
position `ci` against the year rendered from its own `work_year` cell. -/
def resolveRow (gdp : DataFrame) (ci wi : Nat) (r : Nat × List Value) : Except PErr Value :=
  match gdpLookup gdp (getCell r.2 ci) (pyStr (getCell r.2 wi)) with
  | some v => .ok v
  | none => .error (.resolution (pyStr (getCell r.2 ci)) (pyStr (getCell r.2 wi)))

/-- Overwrite column `i` with the given values, row by row. -/
def setColVals (d : DataFrame) (i : Nat) (vs : List Value) : DataFrame :=
  { d with rows := d.rows.zipWith (fun r v => (r.1, r.2.set i v)) vs }

/-- `data.loc[:, c] = data.apply(lambda x: gdp.loc[x[c], str(x["work_year"])], axis=1)`:
every row's lambda is evaluated before the column is assigned, so a single
missing pair aborts the whole assignment. -/
def resolveColumn (d : DataFrame) (gdp : DataFrame) (c : String) : Except PErr DataFrame :=
  match colIdx d c, colIdx d "work_year" with
  | some ci, some wi => do
      let vs ← exceptMap (resolveRow gdp ci wi) d.rows
      pure (setColVals d ci vs)
  | none, _ => .error (.validation c)
  | some _, none => .error (.validation "work_year")

/-- `preprocess_country`: resolve `company_location`, then
`employee_residence` (both assignments mutate the caller's frame, which is
also the returned frame). -/
def preprocess_country (d gdp : DataFrame) : Except PErr DataFrame := do
  let d1 ← resolveColumn d gdp "company_location"
  resolveColumn d1 gdp "employee_residence"

/-- State of the caller's argument after a successful `preprocess_country`:
identical to the returned frame (`.loc` assignment is in place). -/
def preprocess_country_arg (d gdp : DataFrame) : Except PErr DataFrame :=
  preprocess_country d gdp

/-! ### Numeric Normalizer (`preprocess_numbers`) -/

/-- `astype(int)` on one cell. -/
def castInt : Value → Except PErr Value
  | .int n => .ok (.int n)
  | .float q => .ok (.int (if q < 0 then q.ceil else q.floor))
  | .str s => match s.toInt? with
      | some n => .ok (.int n)
      | none => .error .typeErr
  | .na => .error .typeErr

/-- Read a cell as a rational, failing on non-numeric cells. -/
def toRatE (v : Value) : Except PErr ℚ :=
  match v.toRat? with
  | some q => .ok q
  | none => .error .typeErr

/-- `numpy.argsort` on a list of rationals (stable; ties are arbitrary in
numpy but tied positions hold equal values, so any argsort produces the
same winsorized list). -/
def argsortQ (a : List ℚ) : List Nat :=
  (List.range a.length).insertionSort (fun i j => a.getD i 0 ≤ a.getD j 0)

/-- `scipy.stats.mstats.winsorize(a, limits=[0.01, 0.01])` with the
inclusive defaults: `k = int(0.01 * n)`; the entries of rank `< k` become
`a[idx[k]]` and the entries of rank `>= n - k` become `a[idx[n - k - 1]]`;
all other entries are untouched. -/
def winsorizeScipy (a : List ℚ) : List ℚ :=
  let n := a.length
  let k := n / 100
  let idx := argsortQ a
  let lo := a.getD (idx.getD k 0) 0
  let hi := a.getD (idx.getD (n - 1 - k) 0) 0
  (List.range n).map (fun i =>
    let p := idx.indexOf i
    if p < k then lo else if n - k ≤ p then hi else a.getD i 0)

/-- The column's values in ascending order. -/
def sortedQ (a : List ℚ) : List ℚ := a.insertionSort (· ≤ ·)

/-- The value at the 1st percentile in the sense of the spec: the sorted
column's entry at position `int(0.01 * n)`. -/
def pct01 (a : List ℚ) : ℚ := (sortedQ a).getD (a.length / 100) 0

/-- The value at the 99th percentile in the sense of the spec: the sorted
column's entry at position `n - 1 - int(0.01 * n)`. -/
def pct99 (a : List ℚ) : ℚ := (sortedQ a).getD (a.length - 1 - a.length / 100) 0

/-- `preprocess_numbers`: cast `work_year` to int, then winsorize
`salary_in_usd` at the 1% tails (both column assignments are in place). -/
def preprocess_numbers (d : DataFrame) : Except PErr DataFrame :=
  match colIdx d "work_year" with
  | none => .error (.validation "work_year")
  | some wi => do
      let wvals ← exceptMap castInt (colVals d wi)
      let d1 := setColVals d wi wvals
      match colIdx d1 "salary_in_usd" with
      | none => .error (.validation "salary_in_usd")
      | some si => do
          let svals ← exceptMap toRatE (colVals d1 si)
          pure (setColVals d1 si ((winsorizeScipy svals).map mkNum))

/-- State of the caller's argument after a successful `preprocess_numbers`:
identical to the returned frame (both assignments are in place). -/
def preprocess_numbers_arg (d : DataFrame) : Except PErr DataFrame :=
  preprocess_numbers d

/-! ### Text Vectorizer (`preprocess_title`) -/

/-- sklearn's default tokenizer: lowercase, then maximal runs of word
characters (ASCII subset) of length at least 2. -/
def tokenize (s : String) : List String :=
  (((s.data.map (fun c =>
      let lc := c.toLower
      if lc.isAlphanum ∨ lc = '_' then lc else ' ')).splitOn
    ' ').map (fun cs => String.mk cs)).filter (fun t => 2 ≤ t.length)

/-- A fitted term vectorizer: sorted distinct vocabulary plus a strictly
positive per-term idf factor (see the module comment on the surrogate). -/
structure Vectorizer where
  vocab : List String
  nodup : vocab.Nodup
  idf : String → ℚ
  idf_pos : ∀ t, 0 < idf t

/-- The tf-idf weight of term `t` in one title: raw count times idf. -/
def termWeight (v : Vectorizer) (t : String) (title : String) : ℚ :=
  ((tokenize title).count t) * v.idf t

/-- `TfidfVectorizer().fit(titles)`: sorted distinct vocabulary and a
smooth-idf factor per term (positive rational surrogate for
`ln((1+n)/(1+df))+1`). -/
def fitTfidfVectorizer (titles : List String) : Vectorizer where
  vocab := sortDedupStr ((titles.map tokenize).flatten)
  nodup := List.nodup_dedup _
  idf := fun t =>
    ((1 : ℚ) + titles.length) / (1 + (titles.filter (fun ti => decide (t ∈ tokenize ti))).length)
  idf_pos := fun t => by
    apply div_pos <;> positivity

/-- The frame built from `vectorizer.transform(data["job_title"])`:
fresh labels `0..m-1`, one column per vocabulary term with the
`job_title_` name, the (document, term) weight in each cell. -/
def vectorFrame (v : Vectorizer) (titles : List String) : DataFrame where
  cols := v.vocab.map (fun t => "job_title_" ++ t)
  rows := (List.range titles.length).map (fun i =>
    (i, v.vocab.map (fun t => Value.float (termWeight v t (titles.getD i "")))))

/-- A title cell must be a string for `transform` to accept it. -/
def titleString : Value → Except PErr String
  | .str s => .ok s
  | _ => .error .typeErr

/-- The index of `pd.concat(..., axis=1)`: the common index when the two
label lists are equal, else the sorted union. -/
def mergedLabels (l1 l2 : List Nat) : List Nat :=
  if l1 = l2 then l1 else ((l1 ++ l2).insertionSort (· ≤ ·)).dedup

/-- Cells of the row labelled `lab`, a full-`NaN` row when the label is
absent from the frame. -/
def cellsOf (d : DataFrame) (lab : Nat) : List Value :=
  match d.rows.find? (fun r => decide (r.1 = lab)) with
  | some r => r.2
  | none => d.cols.map (fun _ => Value.na)

/-- `pd.concat([d1, d2], axis=1)`: outer join on the row labels. -/
def concatCols (d1 d2 : DataFrame) : DataFrame :=
  let labs := mergedLabels (d1.rows.map (fun r => r.1)) (d2.rows.map (fun r => r.1))
  { cols := d1.cols ++ d2.cols
    rows := labs.map (fun lab => (lab, cellsOf d1 lab ++ cellsOf d2 lab)) }

/-- `preprocess_title`: vectorize `job_title` (reading the column raises if
absent), drop the original column, and concatenate the weight columns. -/
def preprocess_title (d : DataFrame) (v : Vectorizer) : Except PErr DataFrame :=
  match colIdx d "job_title" with
  | none => .error (.validation "job_title")
  | some ji => do
      let titles ← exceptMap titleString (colVals d ji)
      let jv := vectorFrame v titles
      pure (concatCols (dropColumns d ["job_title"]) jv)

/-- State of the caller's argument after `preprocess_title`: untouched —
the source only rebinds its local `data` (`drop` and `concat` return new
frames). -/
def preprocess_title_arg (d : DataFrame) (_ : Vectorizer) : DataFrame := d

/-! ### Pipeline Orchestrator (`preprocess_data`) -/

/-- `preprocess_data`: clean, encode categoricals, resolve country codes,
normalize numerics, fit the vectorizer on the current titles, vectorize. -/
def preprocess_data (d gdp : DataFrame) : Except PErr DataFrame := do
  let d1 := clean_data d
  let d2 ← process_categoricals d1
  let d3 ← preprocess_country d2 gdp
  let d4 ← preprocess_numbers d3
  match colIdx d4 "job_title" with
  | none => .error (.validation "job_title")
  | some ji => do
      let titles ← exceptMap titleString (colVals d4 ji)
      let v := fitTfidfVectorizer titles
      preprocess_title d4 v

/-! ### Concrete inputs used by the claims -/

/-- The spec's concrete scenario record (§8), as a single-row Dataset. -/
def scenarioDF : DataFrame where
  cols := ["work_year", "experience_level", "employment_type", "job_title",
           "salary_in_usd", "employee_residence", "company_location", "company_size"]
  rows := [(0, [.int 2023, .str "SE", .str "FT", .str "Data Scientist",
                .int 120000, .str "US", .str "US", .str "M"])]

/-- Reference table with `alpha_2 = US` and a `2023` column worth 25000. -/
def scenarioGDP : DataFrame where
  cols := ["alpha_2", "2023"]
  rows := [(0, [.str "US", .int 25000])]

/-- Three valid records, the first two identical: cleaning keeps labels
0 and 2, while the title-vector frame gets fresh labels 0 and 1. -/
def dupDF : DataFrame where
  cols := ["work_year", "experience_level", "employment_type", "job_title",
           "salary_in_usd", "employee_residence", "company_location", "company_size"]
  rows := [(0, [.int 2023, .str "SE", .str "FT", .str "Data Scientist",
                .int 120000, .str "US", .str "US", .str "M"]),
           (1, [.int 2023, .str "SE", .str "FT", .str "Data Scientist",
                .int 120000, .str "US", .str "US", .str "M"]),
           (2, [.int 2023, .str "MI", .str "PT", .str "Data Engineer",
                .int 90000, .str "US", .str "US", .str "L"])]

/-- One record whose `work_year` is the integer 2023. -/
def intYearDF : DataFrame where
  cols := ["work_year", "company_location", "employee_residence"]
  rows := [(0, [.int 2023, .str "US", .str "US"])]

/-- The same record with `work_year` stored as the float 2023.0. -/
def floatYearDF : DataFrame where
  cols := ["work_year", "company_location", "employee_residence"]
  rows := [(0, [.float 2023, .str "US", .str "US"])]

/-- Reference table carrying both a `2023` and a `2023.0` year column,
with different values. -/
def twoColGDP : DataFrame where
  cols := ["alpha_2", "2023", "2023.0"]
  rows := [(0, [.str "US", .int 111, .int 222])]

/-- The scenario record with `work_year` stored as a float. -/
def floatYearFullDF : DataFrame where
  cols := ["work_year", "experience_level", "employment_type", "job_title",
           "salary_in_usd", "employee_residence", "company_location", "company_size"]
  rows := [(0, [.float 2023, .str "SE", .str "FT", .str "Data Scientist",
                .int 120000, .str "US", .str "US", .str "M"])]

/-- Reference table whose only year column is named `2023.0`. -/
def floatYearGDP : DataFrame where
  cols := ["alpha_2", "2023.0"]
  rows := [(0, [.str "US", .int 25000])]

/-- Two records identical except for the `salary` column. -/
def salaryDupDF : DataFrame where
  cols := ["work_year", "job_title", "salary", "salary_currency"]
  rows := [(0, [.int 2023, .str "Data Scientist", .int 100, .str "USD"]),
           (1, [.int 2023, .str "Data Scientist", .int 200, .str "USD"])]

/-! ### Claims -/

unseal Rat.mul Rat.inv Rat.add Rat.sub in
/-- C1: the claim fails on the code. On three valid records (the first two
identical, all categoricals mapped, all (country, year) pairs in the
table) the intermediate frame entering the title step has no missing
values, yet `preprocess_data` succeeds and returns rows containing missing
values: `clean_data` keeps the original row labels 0 and 2, while the
title-vector frame is built with fresh labels 0 and 1, and
`pd.concat(axis=1)` outer-joins the two label sets, padding with `NaN`. -/
theorem C1_missing_values_at_failing_input :
    (((process_categoricals (clean_data dupDF)).bind
        (fun d2 => preprocess_country d2 scenarioGDP)).bind preprocess_numbers).map
      (fun d4 => d4.rows.any (fun r => decide (Value.na ∈ r.2))) = Except.ok false ∧
    (preprocess_data dupDF scenarioGDP).map
      (fun out => out.rows.any (fun r => decide (Value.na ∈ r.2))) = Except.ok true :=
  ⟨by rfl, by rfl⟩

unseal Rat.mul Rat.inv Rat.add Rat.sub in
/-- C2 counterexample: on the spec's concrete scenario the pipeline
produces no `employment_type_FT` column — `FT` is the only observed
category and `get_dummies(drop_first=True)` drops the first category, so a
single-category column yields zero indicator columns. -/
theorem C2_employment_type_FT_column_absent :
    (preprocess_data scenarioDF scenarioGDP).map
      (fun out => decide ("employment_type_FT" ∈ out.cols)) = Except.ok false := by
  rfl

unseal Rat.mul Rat.inv Rat.add Rat.sub in
/-- C2 amended: on the scenario record the pipeline yields
`experience_level = 3`, `company_size = 2`, both country columns = 25000,
`salary_in_usd` unchanged at 120000, `job_title_data` and
`job_title_scientist` present with the nonzero weight 1 — but the
`employment_type` column is consumed producing no indicator columns at
all, so `employment_type_FT` is absent. -/
theorem C2_scenario_pipeline_amended :
    (preprocess_data scenarioDF scenarioGDP).map
      (fun out => cellAt out 0 "experience_level") = Except.ok (.int 3) ∧
    (preprocess_data scenarioDF scenarioGDP).map
      (fun out => cellAt out 0 "company_size") = Except.ok (.int 2) ∧
    (preprocess_data scenarioDF scenarioGDP).map
      (fun out => cellAt out 0 "employee_residence") = Except.ok (.int 25000) ∧
    (preprocess_data scenarioDF scenarioGDP).map
      (fun out => cellAt out 0 "company_location") = Except.ok (.int 25000) ∧
    (preprocess_data scenarioDF scenarioGDP).map
      (fun out => decide ("employment_type_FT" ∈ out.cols)) = Except.ok false ∧
    (preprocess_data scenarioDF scenarioGDP).map
      (fun out => decide ("employment_type" ∈ out.cols)) = Except.ok false ∧
    (preprocess_data scenarioDF scenarioGDP).map
      (fun out => decide ("job_title_data" ∈ out.cols)) = Except.ok true ∧
    (preprocess_data scenarioDF scenarioGDP).map
      (fun out => decide ("job_title_scientist" ∈ out.cols)) = Except.ok true ∧
    (preprocess_data scenarioDF scenarioGDP).map
      (fun out => cellAt out 0 "job_title_data") = Except.ok (.float 1) ∧
    (preprocess_data scenarioDF scenarioGDP).map
      (fun out => cellAt out 0 "job_title_scientist") = Except.ok (.float 1) ∧
    (preprocess_data scenarioDF scenarioGDP).map
      (fun out => cellAt out 0 "salary_in_usd") = Except.ok (.int 120000) := by
  refine ⟨?_, ?_, ?_, ?_, ?_, ?_, ?_, ?_, ?_, ?_, ?_⟩ <;> rfl

unseal Rat.mul Rat.inv Rat.add Rat.sub in
/-- C9: the year key of both reference lookups is the string rendering of
the record's `work_year` cell as stored when `preprocess_country` runs —
before `preprocess_numbers` casts it to int. The numerically equal cells
`int 2023` and `float 2023.0` render as `"2023"` and `"2023.0"` and hence
resolve against different year columns of the same table; and the full
pipeline on a float-year record succeeds against a table whose only year
column is `"2023.0"`, returning `work_year` cast to `int 2023` — so the
cast happens after resolution. -/
theorem C9_year_key_is_string_rendering :
    pyStr (.int 2023) = "2023" ∧
    pyStr (.float 2023) = "2023.0" ∧
    Value.toRat? (.int 2023) = Value.toRat? (.float 2023) ∧
    (preprocess_country intYearDF twoColGDP).map
      (fun out => cellAt out 0 "company_location") = Except.ok (.int 111) ∧
    (preprocess_country floatYearDF twoColGDP).map
      (fun out => cellAt out 0 "company_location") = Except.ok (.int 222) ∧
    (preprocess_country intYearDF twoColGDP).map
      (fun out => cellAt out 0 "employee_residence") = Except.ok (.int 111) ∧
    (preprocess_country floatYearDF twoColGDP).map
      (fun out => cellAt out 0 "employee_residence") = Except.ok (.int 222) ∧
    (preprocess_data floatYearFullDF floatYearGDP).map
      (fun out => (cellAt out 0 "work_year", cellAt out 0 "company_location")) =
      Except.ok (.int 2023, .int 25000) := by
  refine ⟨?_, ?_, ?_, ?_, ?_, ?_, ?_, ?_⟩ <;> rfl

/-- C4 counterexample: on two records identical except in `salary`,
`clean_data` returns two equal rows — `drop_duplicates` runs before the
`salary`/`salary_currency` drop, so rows that become equal only after the
column drop survive as duplicates. -/
theorem C4_duplicate_rows_after_column_drop :
    ¬ ((clean_data salaryDupDF).rows.map (fun r => r.2)).Nodup := by
  decide

/-- C8 counterexample: on the same two records, a second `clean_data`
removes the duplicate that the first left behind, so
`clean_data ∘ clean_data ≠ clean_data` there. -/
theorem C8_clean_data_not_idempotent :
    clean_data (clean_data salaryDupDF) ≠ clean_data salaryDupDF := by
  decide

/-! ### Helper lemmas about the cleaning primitives -/

lemma mem_of_mem_filterMask {α : Type} :
    ∀ {mask : List Bool} {xs : List α} {x : α}, x ∈ filterMask mask xs → x ∈ xs := by
  intro mask
  induction mask with
  | nil => intro xs x h; simp [filterMask] at h
  | cons b bs ih =>
    intro xs x h
    cases xs with
    | nil => simp [filterMask] at h
    | cons y ys =>
      cases b with
      | false => exact List.mem_cons_of_mem y (ih h)
      | true =>
        simp only [filterMask, if_pos] at h
        rcases List.mem_cons.mp h with h | h
        · exact h ▸ List.mem_cons_self y ys
        · exact List.mem_cons_of_mem y (ih h)

lemma filterMask_map_self {α : Type} (f : α → Bool) :
    ∀ xs : List α, filterMask (xs.map f) xs = xs.filter f := by
  intro xs
  induction xs with
  | nil => rfl
  | cons y ys ih =>
    by_cases h : f y = true
    · simp [filterMask, List.filter, h, ih]
    · simp only [Bool.not_eq_true] at h
      simp [filterMask, List.filter, h, ih]

lemma filterMask_of_all_true {α : Type} :
    ∀ (mask : List Bool) (xs : List α), (∀ b ∈ mask, b = true) →
      xs.length ≤ mask.length → filterMask mask xs = xs := by
  intro mask
  induction mask with
  | nil =>
    intro xs _ hlen
    cases xs with
    | nil => rfl
    | cons y ys => simp at hlen
  | cons b bs ih =>
    intro xs hall hlen
    cases xs with
    | nil => cases b <;> rfl
    | cons y ys =>
      have hb : b = true := hall b (List.mem_cons_self b bs)
      rw [hb]
      simp only [filterMask, if_pos]
      rw [ih ys (fun c hc => hall c (List.mem_cons_of_mem b hc))
        (Nat.le_of_succ_le_succ (by simpa using hlen))]

lemma mem_of_mem_dedupRowsAux :
    ∀ (l : List (Nat × List Value)) (seen : List (List Value)) (r : Nat × List Value),
      r ∈ dedupRowsAux l seen → r ∈ l := by
  intro l
  induction l with
  | nil => intro seen r h; simp [dedupRowsAux] at h
  | cons x xs ih =>
    intro seen r h
    simp only [dedupRowsAux] at h
    by_cases hx : x.2 ∈ seen
    · rw [if_pos hx] at h
      exact List.mem_cons_of_mem x (ih _ r h)
    · rw [if_neg hx] at h
      rcases List.mem_cons.mp h with h | h
      · exact h ▸ List.mem_cons_self x xs
      · exact List.mem_cons_of_mem x (ih _ r h)

lemma length_dedupRowsAux_le :
    ∀ (l : List (Nat × List Value)) (seen : List (List Value)),
      (dedupRowsAux l seen).length ≤ l.length := by
  intro l
  induction l with
  | nil => intro seen; simp [dedupRowsAux]
  | cons x xs ih =>
    intro seen
    simp only [dedupRowsAux]
    by_cases hx : x.2 ∈ seen
    · rw [if_pos hx]
      exact Nat.le_succ_of_le (ih _)
    · rw [if_neg hx]
      simpa using Nat.succ_le_succ (ih _)

lemma dedupRowsAux_spec :
    ∀ (l : List (Nat × List Value)) (seen : List (List Value)),
      ((dedupRowsAux l seen).map Prod.snd).Nodup ∧
      ∀ r ∈ dedupRowsAux l seen, r.2 ∉ seen := by
  intro l
  induction l with
  | nil => intro seen; simp [dedupRowsAux]
  | cons x xs ih =>
    intro seen
    simp only [dedupRowsAux]
    by_cases hx : x.2 ∈ seen
    · rw [if_pos hx]; exact ih seen
    · rw [if_neg hx]
      obtain ⟨hnd, hout⟩ := ih (x.2 :: seen)
      refine ⟨?_, ?_⟩
      · simp only [List.map_cons, List.nodup_cons]
        refine ⟨?_, hnd⟩
        intro hmem
        rcases List.mem_map.mp hmem with ⟨r, hr, hr2⟩
        exact hout r hr (hr2 ▸ List.mem_cons_self x.2 seen)
      · intro r hr
        rcases List.mem_cons.mp hr with hr | hr
        · exact hr ▸ hx
        · intro hseen
          exact hout r hr (List.mem_cons_of_mem _ hseen)

lemma dedupRowsAux_eq_self :
    ∀ (l : List (Nat × List Value)) (seen : List (List Value)),
      (l.map Prod.snd).Nodup → (∀ r ∈ l, r.2 ∉ seen) → dedupRowsAux l seen = l := by
  intro l
  induction l with
  | nil => intro seen _ _; rfl
  | cons x xs ih =>
    intro seen hnd hout
    simp only [dedupRowsAux]
    rw [if_neg (hout x (List.mem_cons_self x xs))]
    congr 1
    refine ih _ (by simpa using (List.nodup_cons.mp (by simpa using hnd)).2) ?_
    intro r hr hmem
    rcases List.mem_cons.mp hmem with hmem | hmem
    · have : x.2 ∉ (xs.map Prod.snd) := (List.nodup_cons.mp (by simpa using hnd)).1
      exact this (hmem ▸ List.mem_map.mpr ⟨r, hr, rfl⟩)
    · exact hout r (List.mem_cons_of_mem x hr) hmem

lemma mem_rows_dropna {d : DataFrame} {r : Nat × List Value} (h : r ∈ (dropna d).rows) :
    r ∈ d.rows ∧ Value.na ∉ r.2 := by
  have := List.mem_filter.mp h
  exact ⟨this.1, by simpa using this.2⟩

/-- C4 amended: `clean_data` output has no missing values, no more rows
than the input, and lacks the `salary` / `salary_currency` columns (their
absence being tolerated); the surviving rows are duplicate-free with
respect to the full pre-drop cell lists — but because `drop_duplicates`
runs before the column drop, two output rows that differed only in the
dropped columns may be equal. -/
theorem C4_clean_data_properties (d : DataFrame) :
    (∀ r ∈ (clean_data d).rows, Value.na ∉ r.2) ∧
    (clean_data d).rows.length ≤ d.rows.length ∧
    "salary" ∉ (clean_data d).cols ∧
    "salary_currency" ∉ (clean_data d).cols ∧
    ((dedupRows (dropna d).rows).map Prod.snd).Nodup ∧
    (clean_data d).rows = (dedupRows (dropna d).rows).map
      (fun r => (r.1, filterMask
        (d.cols.map (fun c => !decide (c ∈ (["salary", "salary_currency"] : List String)))) r.2)) := by
  refine ⟨?_, ?_, ?_, ?_, (dedupRowsAux_spec _ _).1, rfl⟩
  · intro r hr
    rcases List.mem_map.mp hr with ⟨r0, hr0, hr0eq⟩
    have hna : Value.na ∉ r0.2 :=
      (mem_rows_dropna (mem_of_mem_dedupRowsAux _ _ _ hr0)).2
    intro hmem
    rw [← hr0eq] at hmem
    exact hna (mem_of_mem_filterMask hmem)
  · calc (clean_data d).rows.length
        = (dedupRows (dropna d).rows).length := List.length_map _ _
      _ ≤ (dropna d).rows.length := length_dedupRowsAux_le _ _
      _ ≤ d.rows.length := List.length_filter_le _ _
  · show "salary" ∉ filterMask (d.cols.map _) d.cols
    rw [filterMask_map_self]
    intro hmem
    simpa using (List.mem_filter.mp hmem).2
  · show "salary_currency" ∉ filterMask (d.cols.map _) d.cols
    rw [filterMask_map_self]
    intro hmem
    simpa using (List.mem_filter.mp hmem).2

/-- C8 amended: `clean_data` is idempotent on frames that do not carry the
`salary` / `salary_currency` columns (with rectangular rows); in general a
second application can remove rows that became duplicates only through the
column drop, as the counterexample shows. -/
theorem C8_clean_data_idempotent_no_salary_cols (d : DataFrame)
    (hwf : ∀ r ∈ d.rows, r.2.length = d.cols.length)
    (hs : "salary" ∉ d.cols) (hsc : "salary_currency" ∉ d.cols) :
    clean_data (clean_data d) = clean_data d := by
  have hmask : ∀ b ∈ d.cols.map
      (fun c => !decide (c ∈ (["salary", "salary_currency"] : List String))), b = true := by
    intro b hb
    rcases List.mem_map.mp hb with ⟨c, hc, hceq⟩
    have : c ∉ (["salary", "salary_currency"] : List String) := by
      intro hmem
      rcases List.mem_cons.mp hmem with h | h
      · exact hs (h ▸ hc)
      · rcases List.mem_cons.mp h with h | h
        · exact hsc (h ▸ hc)
        · simp at h
    simpa [this] using hceq.symm
  have hmasklen : d.cols.length ≤
      (d.cols.map (fun c => !decide (c ∈ (["salary", "salary_currency"] : List String)))).length := by
    simp
  -- the first pass only deduplicates: columns survive, cells survive
  have hcols1 : (clean_data d).cols = d.cols :=
    filterMask_of_all_true _ _ hmask hmasklen
  have hrows1 : (clean_data d).rows = dedupRows (dropna d).rows := by
    show (dedupRows (dropna d).rows).map _ = _
    have : ∀ r ∈ dedupRows (dropna d).rows,
        (r.1, filterMask (d.cols.map
          (fun c => !decide (c ∈ (["salary", "salary_currency"] : List String)))) r.2) = r := by
      intro r hr
      have hlen : r.2.length = d.cols.length :=
        hwf r (mem_rows_dropna (mem_of_mem_dedupRowsAux _ _ _ hr)).1
      rw [filterMask_of_all_true _ _ hmask (by simpa using Nat.le_of_eq hlen)]
    calc (dedupRows (dropna d).rows).map _
        = (dedupRows (dropna d).rows).map id := List.map_congr_left this
      _ = _ := List.map_id _
  -- the second pass finds nothing to do
  have hnona : ∀ r ∈ (clean_data d).rows, Value.na ∉ r.2 := (C4_clean_data_properties d).1
  have hdropna2 : dropna (clean_data d) = clean_data d := by
    show DataFrame.mk _ _ = _
    rw [List.filter_eq_self.mpr (fun r hr => by simpa using hnona r hr)]
  have hnd : ((clean_data d).rows.map Prod.snd).Nodup := by
    rw [hrows1]; exact (dedupRowsAux_spec _ _).1
  have hdedup2 : dedupRows (clean_data d).rows = (clean_data d).rows :=
    dedupRowsAux_eq_self _ _ hnd (by simp)
  show dropColumns { dropna (clean_data d) with
      rows := dedupRows (dropna (clean_data d)).rows } _ = _
  rw [hdropna2]
  have hcols2 : ∀ b ∈ (clean_data d).cols.map
      (fun c => !decide (c ∈ (["salary", "salary_currency"] : List String))), b = true := by
    rw [hcols1]; exact hmask
  have hrowlen2 : ∀ r ∈ (clean_data d).rows, r.2.length = (clean_data d).cols.length := by
    intro r hr
    rw [hcols1, hrows1] at *
    exact hwf r (mem_rows_dropna (mem_of_mem_dedupRowsAux _ _ _ hr)).1
  show DataFrame.mk _ _ = _
  rw [hdedup2]
  have h1 : filterMask ((clean_data d).cols.map
      (fun c => !decide (c ∈ (["salary", "salary_currency"] : List String)))) (clean_data d).cols =
      (clean_data d).cols :=
    filterMask_of_all_true _ _ hcols2 (by simp)
  have h2 : (clean_data d).rows.map (fun r => (r.1, filterMask ((clean_data d).cols.map
      (fun c => !decide (c ∈ (["salary", "salary_currency"] : List String)))) r.2)) =
      (clean_data d).rows := by
    have : ∀ r ∈ (clean_data d).rows, (r.1, filterMask ((clean_data d).cols.map
        (fun c => !decide (c ∈ (["salary", "salary_currency"] : List String)))) r.2) = r := by
      intro r hr
      rw [filterMask_of_all_true _ _ hcols2
        (by simpa using Nat.le_of_eq (hrowlen2 r hr))]
    calc (clean_data d).rows.map _
        = (clean_data d).rows.map id := List.map_congr_left this
      _ = _ := List.map_id _
  exact congrArg₂ DataFrame.mk h1 h2

/-- C8 witness: idempotence at a concrete one-row frame without the
salary columns. -/
theorem C8_idempotence_witness :
    clean_data (clean_data (DataFrame.mk ["work_year"] [(0, [Value.int 2023])])) =
    clean_data (DataFrame.mk ["work_year"] [(0, [Value.int 2023])]) :=
  C8_clean_data_idempotent_no_salary_cols _ (by decide) (by decide) (by decide)

/-! ### Helper lemmas: column positions, row access, in-place writes -/

/-- Row at position `j` (with a dummy default). -/
def rowAt (d : DataFrame) (j : Nat) : Nat × List Value := d.rows.getD j (0, [])

lemma rowAt_mem {d : DataFrame} {j : Nat} (hj : j < d.rows.length) : rowAt d j ∈ d.rows := by
  rw [rowAt, List.getD_eq_getElem _ _ hj]
  exact List.getElem_mem hj

lemma findIdx?_str_spec (l : List String) (c : String) (i : Nat)
    (h : l.findIdx? (fun x => x = c) = some i) : i < l.length ∧ l.getD i "" = c := by
  obtain ⟨hlt, hp, _⟩ := List.findIdx?_eq_some_iff_getElem.mp h
  refine ⟨hlt, ?_⟩
  rw [List.getD_eq_getElem _ _ hlt]
  simpa using hp

lemma colIdx_lt {d : DataFrame} {c : String} {i : Nat} (h : colIdx d c = some i) :
    i < d.cols.length := (findIdx?_str_spec _ _ _ h).1

lemma colIdx_name {d : DataFrame} {c : String} {i : Nat} (h : colIdx d c = some i) :
    d.cols.getD i "" = c := (findIdx?_str_spec _ _ _ h).2

lemma colIdx_ne {d : DataFrame} {c1 c2 : String} {i1 i2 : Nat}
    (h1 : colIdx d c1 = some i1) (h2 : colIdx d c2 = some i2) (hne : c1 ≠ c2) : i1 ≠ i2 := by
  intro he
  exact hne (by rw [← colIdx_name h1, he, colIdx_name h2])

lemma getCell_set_ne {cells : List Value} {i j : Nat} (v : Value) (h : i ≠ j) :
    getCell (cells.set i v) j = getCell cells j := by
  simp [getCell, List.getD, List.getElem?_set_ne h]

lemma getCell_set_self {cells : List Value} {i : Nat} (v : Value) (h : i < cells.length) :
    getCell (cells.set i v) i = v := by
  simp [getCell, List.getD, List.getElem?_set_self, h]

lemma length_setColVals (d : DataFrame) (i : Nat) (vs : List Value)
    (h : vs.length = d.rows.length) : (setColVals d i vs).rows.length = d.rows.length := by
  simp [setColVals, List.length_zipWith, h]

lemma rowAt_setColVals (d : DataFrame) (i : Nat) (vs : List Value) (j : Nat)
    (hj : j < d.rows.length) (hlen : vs.length = d.rows.length) :
    rowAt (setColVals d i vs) j = ((rowAt d j).1, (rowAt d j).2.set i (vs.getD j .na)) := by
  have hj2 : j < vs.length := by omega
  have hz : j < (List.zipWith (fun r v => (r.1, r.2.set i v)) d.rows vs).length := by
    simp [List.length_zipWith]; omega
  simp only [rowAt, setColVals]
  rw [List.getD_eq_getElem _ _ hz, List.getD_eq_getElem _ _ hj, List.getD_eq_getElem _ _ hj2,
    List.getElem_zipWith]

lemma getD_map_list {α β : Type} (f : α → β) (l : List α) (j : Nat) (d0 : α) (b0 : β)
    (hj : j < l.length) : (l.map f).getD j b0 = f (l.getD j d0) := by
  have hj2 : j < (l.map f).length := by simpa using hj
  rw [List.getD_eq_getElem _ _ hj2, List.getD_eq_getElem _ _ hj, List.getElem_map]

/-- Unwrap an `Except` with a default. -/
def okOr {β : Type} (e : Except PErr β) (dflt : β) : β :=
  match e with
  | .ok y => y
  | .error _ => dflt

lemma exceptMap_ok_forall {α β : Type} {f : α → Except PErr β} :
    ∀ {l : List α} {ys : List β}, exceptMap f l = .ok ys → ∀ x ∈ l, (f x).isOk = true := by
  intro l
  induction l with
  | nil => intro ys _ x hx; cases hx
  | cons a l ih =>
    intro ys h x hx
    simp only [exceptMap] at h
    cases hfa : f a with
    | error e => rw [hfa] at h; simp at h
    | ok y =>
      rw [hfa] at h
      rcases List.mem_cons.mp hx with hx | hx
      · rw [hx, hfa]; rfl
      · cases hm : exceptMap f l with
        | error e => rw [hm] at h; simp at h
        | ok ys0 => exact ih hm x hx

lemma exceptMap_eq_ok_map {α β : Type} (f : α → Except PErr β) (dflt : β) :
    ∀ (l : List α), (∀ x ∈ l, (f x).isOk = true) →
      exceptMap f l = .ok (l.map (fun x => okOr (f x) dflt)) := by
  intro l
  induction l with
  | nil => intro _; rfl
  | cons a l ih =>
    intro hall
    have ha := hall a (List.mem_cons_self a l)
    obtain ⟨y, hy⟩ : ∃ y, f a = .ok y := by
      cases hfa : f a with
      | ok y => exact ⟨y, rfl⟩
      | error e => rw [hfa] at ha; simp [Except.isOk, Except.toBool] at ha
    simp only [exceptMap, hy, ih (fun x hx => hall x (List.mem_cons_of_mem a hx)),
      List.map_cons, okOr]

lemma exceptMap_error_mem {α β : Type} {f : α → Except PErr β} :
    ∀ {l : List α} {e : PErr}, exceptMap f l = .error e → ∃ x ∈ l, f x = .error e := by
  intro l
  induction l with
  | nil => intro e h; simp [exceptMap] at h
  | cons a l ih =>
    intro e h
    simp only [exceptMap] at h
    cases hfa : f a with
    | error e0 =>
      rw [hfa] at h
      exact ⟨a, List.mem_cons_self a l, hfa.trans (congrArg Except.error (Except.error.inj h))⟩
    | ok y =>
      rw [hfa] at h
      cases hm : exceptMap f l with
      | error e0 =>
        rw [hm] at h
        obtain rfl : e0 = e := Except.error.inj h
        obtain ⟨x, hx, hfx⟩ := ih hm
        exact ⟨x, List.mem_cons_of_mem a hx, hfx⟩
      | ok ys0 => rw [hm] at h; simp at h

lemma exceptMap_error_of_failure {α β : Type} {f : α → Except PErr β} {l : List α}
    (h : ∃ x ∈ l, (f x).isOk = false) :
    ∃ e, exceptMap f l = .error e ∧ ∃ x ∈ l, f x = .error e := by
  cases hv : exceptMap f l with
  | ok ys =>
    obtain ⟨x, hx, hfx⟩ := h
    rw [exceptMap_ok_forall hv x hx] at hfx
    cases hfx
  | error e => exact ⟨e, rfl, exceptMap_error_mem hv⟩

lemma resolveRow_isOk (gdp : DataFrame) (ci wi : Nat) (r : Nat × List Value) :
    (resolveRow gdp ci wi r).isOk =
      (gdpLookup gdp (getCell r.2 ci) (pyStr (getCell r.2 wi))).isSome := by
  unfold resolveRow
  cases gdpLookup gdp (getCell r.2 ci) (pyStr (getCell r.2 wi)) <;> rfl

lemma okOr_resolveRow (gdp : DataFrame) (ci wi : Nat) (r : Nat × List Value) :
    okOr (resolveRow gdp ci wi r) .na =
      (gdpLookup gdp (getCell r.2 ci) (pyStr (getCell r.2 wi))).getD .na := by
  unfold resolveRow
  cases gdpLookup gdp (getCell r.2 ci) (pyStr (getCell r.2 wi)) <;> rfl

lemma resolveRow_error_shape {gdp : DataFrame} {ci wi : Nat} {r : Nat × List Value} {e : PErr}
    (h : resolveRow gdp ci wi r = .error e) : ∃ c y, e = PErr.resolution c y := by
  unfold resolveRow at h
  cases hl : gdpLookup gdp (getCell r.2 ci) (pyStr (getCell r.2 wi)) with
  | some v => rw [hl] at h; cases h
  | none =>
    rw [hl] at h
    exact ⟨_, _, (Except.error.inj h).symm⟩

lemma resolveColumn_ok (d gdp : DataFrame) (c : String) (ci wi : Nat)
    (hci : colIdx d c = some ci) (hwi : colIdx d "work_year" = some wi)
    (hall : ∀ r ∈ d.rows,
      (gdpLookup gdp (getCell r.2 ci) (pyStr (getCell r.2 wi))).isSome = true) :
    resolveColumn d gdp c = .ok (setColVals d ci (d.rows.map
      (fun r => (gdpLookup gdp (getCell r.2 ci) (pyStr (getCell r.2 wi))).getD .na))) := by
  unfold resolveColumn
  simp only [hci, hwi]
  have hmap := exceptMap_eq_ok_map (resolveRow gdp ci wi) Value.na d.rows
    (fun r hr => by rw [resolveRow_isOk]; exact hall r hr)
  have hvals : d.rows.map (fun r => okOr (resolveRow gdp ci wi r) Value.na) =
      d.rows.map (fun r => (gdpLookup gdp (getCell r.2 ci) (pyStr (getCell r.2 wi))).getD .na) :=
    List.map_congr_left (fun r _ => okOr_resolveRow gdp ci wi r)
  rw [hvals] at hmap
  simp only [hmap]
  rfl

lemma resolveColumn_error (d gdp : DataFrame) (c : String) (ci wi : Nat)
    (hci : colIdx d c = some ci) (hwi : colIdx d "work_year" = some wi)
    (hfail : ∃ r ∈ d.rows,
      (gdpLookup gdp (getCell r.2 ci) (pyStr (getCell r.2 wi))).isSome = false) :
    ∃ code year, resolveColumn d gdp c = .error (.resolution code year) := by
  unfold resolveColumn
  simp only [hci, hwi]
  obtain ⟨e, hm, x, _, hfx⟩ := exceptMap_error_of_failure (f := resolveRow gdp ci wi)
    (by obtain ⟨r, hr, hfr⟩ := hfail
        exact ⟨r, hr, by rw [resolveRow_isOk]; exact hfr⟩)
  obtain ⟨code, year, rfl⟩ := resolveRow_error_shape hfx
  refine ⟨code, year, ?_⟩
  simp only [hm]
  rfl

/-- Full description of a successful `preprocess_country` run: both country
columns are replaced by the per-record table lookups keyed by the record's
own rendered `work_year`; labels, column names, row count, row widths, and
every other column are untouched. -/
lemma preprocess_country_spec (d gdp : DataFrame) (ci ei wi : Nat)
    (hwf : ∀ r ∈ d.rows, r.2.length = d.cols.length)
    (hci : colIdx d "company_location" = some ci)
    (hei : colIdx d "employee_residence" = some ei)
    (hwi : colIdx d "work_year" = some wi)
    (hall : ∀ r ∈ d.rows,
      (gdpLookup gdp (getCell r.2 ci) (pyStr (getCell r.2 wi))).isSome = true ∧
      (gdpLookup gdp (getCell r.2 ei) (pyStr (getCell r.2 wi))).isSome = true) :
    ∃ d', preprocess_country d gdp = .ok d' ∧
      d'.cols = d.cols ∧
      d'.rows.length = d.rows.length ∧
      ∀ j, j < d.rows.length →
        (rowAt d' j).1 = (rowAt d j).1 ∧
        getCell (rowAt d' j).2 ci =
          (gdpLookup gdp (getCell (rowAt d j).2 ci) (pyStr (getCell (rowAt d j).2 wi))).getD .na ∧
        getCell (rowAt d' j).2 ei =
          (gdpLookup gdp (getCell (rowAt d j).2 ei) (pyStr (getCell (rowAt d j).2 wi))).getD .na ∧
        ∀ m, m ≠ ci → m ≠ ei → getCell (rowAt d' j).2 m = getCell (rowAt d j).2 m := by
  have hciei : ci ≠ ei := colIdx_ne hci hei (by decide)
  have hciwi : ci ≠ wi := colIdx_ne hci hwi (by decide)
  have heiwi : ei ≠ wi := colIdx_ne hei hwi (by decide)
  -- first pass: company_location
  set vsCL := d.rows.map
    (fun r => (gdpLookup gdp (getCell r.2 ci) (pyStr (getCell r.2 wi))).getD Value.na) with hvsCL
  have hlenCL : vsCL.length = d.rows.length := List.length_map _ _
  set d1 := setColVals d ci vsCL with hd1
  have h1 : resolveColumn d gdp "company_location" = .ok d1 :=
    resolveColumn_ok d gdp _ ci wi hci hwi (fun r hr => (hall r hr).1)
  have hlen1 : d1.rows.length = d.rows.length := length_setColVals d ci vsCL hlenCL
  have hrow1 : ∀ j, j < d.rows.length →
      rowAt d1 j = ((rowAt d j).1, (rowAt d j).2.set ci (vsCL.getD j .na)) :=
    fun j hj => rowAt_setColVals d ci vsCL j hj hlenCL
  have hcell1ne : ∀ j, j < d.rows.length → ∀ m, m ≠ ci →
      getCell (rowAt d1 j).2 m = getCell (rowAt d j).2 m := by
    intro j hj m hm
    rw [hrow1 j hj]
    exact getCell_set_ne _ (fun h => hm h.symm)
  -- second pass: employee_residence
  have hallER : ∀ r1 ∈ d1.rows,
      (gdpLookup gdp (getCell r1.2 ei) (pyStr (getCell r1.2 wi))).isSome = true := by
    intro r1 hr1
    obtain ⟨j, hj1, hr1eq⟩ := List.mem_iff_getElem.mp hr1
    have hj : j < d.rows.length := by omega
    have : r1 = rowAt d1 j := by
      rw [rowAt, List.getD_eq_getElem _ _ hj1, hr1eq]
    rw [this, hcell1ne j hj ei (Ne.symm hciei), hcell1ne j hj wi (Ne.symm hciwi)]
    exact (hall (rowAt d j) (rowAt_mem hj)).2
  set vsER := d1.rows.map
    (fun r => (gdpLookup gdp (getCell r.2 ei) (pyStr (getCell r.2 wi))).getD Value.na) with hvsER
  have hlenER : vsER.length = d.rows.length := by
    rw [hvsER, List.length_map, hlen1]
  set d2 := setColVals d1 ei vsER with hd2
  have h2 : resolveColumn d1 gdp "employee_residence" = .ok d2 :=
    resolveColumn_ok d1 gdp _ ei wi hei hwi hallER
  have hlen2 : d2.rows.length = d.rows.length := by
    rw [hd2, length_setColVals d1 ei vsER (by omega), hlen1]
  refine ⟨d2, ?_, rfl, hlen2, ?_⟩
  · show (resolveColumn d gdp "company_location").bind
      (fun da => resolveColumn da gdp "employee_residence") = .ok d2
    rw [h1]
    exact h2
  · intro j hj
    have hj1 : j < d1.rows.length := by omega
    have hrow2 : rowAt d2 j = ((rowAt d1 j).1, (rowAt d1 j).2.set ei (vsER.getD j .na)) :=
      rowAt_setColVals d1 ei vsER j hj1 (by omega)
    have hwid : ci < (rowAt d j).2.length := by
      rw [hwf (rowAt d j) (rowAt_mem hj)]
      exact colIdx_lt hci
    have hwid1 : ei < (rowAt d1 j).2.length := by
      rw [hrow1 j hj]
      simpa using (hwf (rowAt d j) (rowAt_mem hj)) ▸ colIdx_lt hei
    refine ⟨?_, ?_, ?_, ?_⟩
    · rw [hrow2, hrow1 j hj]
    · rw [hrow2]
      show getCell ((rowAt d1 j).2.set ei (vsER.getD j .na)) ci = _
      rw [getCell_set_ne _ hciei.symm, hrow1 j hj]
      show getCell ((rowAt d j).2.set ci (vsCL.getD j .na)) ci = _
      rw [getCell_set_self _ hwid, hvsCL,
        getD_map_list _ d.rows j (0, []) Value.na hj]
      rfl
    · rw [hrow2]
      show getCell ((rowAt d1 j).2.set ei (vsER.getD j .na)) ei = _
      rw [getCell_set_self _ hwid1, hvsER,
        getD_map_list _ d1.rows j (0, []) Value.na hj1]
      show (gdpLookup gdp (getCell (rowAt d1 j).2 ei) (pyStr (getCell (rowAt d1 j).2 wi))).getD Value.na = _
      show (gdpLookup gdp (getCell (rowAt d1 j).2 ei) (pyStr (getCell (rowAt d1 j).2 wi))).getD _ = _
      rw [hcell1ne j hj ei (Ne.symm hciei), hcell1ne j hj wi (Ne.symm hciwi)]
    · intro m hmci hmei
      rw [hrow2]
      show getCell ((rowAt d1 j).2.set ei (vsER.getD j .na)) m = _
      rw [getCell_set_ne _ (fun h => hmei h.symm)]
      exact hcell1ne j hj m hmci

/-- C5: when every (code, rendered work_year) pair of a record resolves in
the reference table, `preprocess_country` succeeds and replaces each
record's `company_location` and `employee_residence` cells with exactly
`ReferenceTable[code][year]`, keyed per record by that record's own
`work_year`. -/
theorem C5_country_resolution_exact (d gdp : DataFrame) (ci ei wi : Nat)
    (hwf : ∀ r ∈ d.rows, r.2.length = d.cols.length)
    (hci : colIdx d "company_location" = some ci)
    (hei : colIdx d "employee_residence" = some ei)
    (hwi : colIdx d "work_year" = some wi)
    (hall : ∀ r ∈ d.rows,
      (gdpLookup gdp (getCell r.2 ci) (pyStr (getCell r.2 wi))).isSome = true ∧
      (gdpLookup gdp (getCell r.2 ei) (pyStr (getCell r.2 wi))).isSome = true) :
    ∃ d', preprocess_country d gdp = .ok d' ∧
      d'.rows.length = d.rows.length ∧
      ∀ j, j < d.rows.length →
        getCell (rowAt d' j).2 ci =
          (gdpLookup gdp (getCell (rowAt d j).2 ci) (pyStr (getCell (rowAt d j).2 wi))).getD .na ∧
        getCell (rowAt d' j).2 ei =
          (gdpLookup gdp (getCell (rowAt d j).2 ei) (pyStr (getCell (rowAt d j).2 wi))).getD .na := by
  obtain ⟨d', hok, _, hlen, hcells⟩ := preprocess_country_spec d gdp ci ei wi hwf hci hei hwi hall
  exact ⟨d', hok, hlen, fun j hj => ⟨(hcells j hj).2.1, (hcells j hj).2.2.1⟩⟩

/-- C5 witness: the single-record frame resolved against the two-column
table. -/
theorem C5_resolution_witness :
    ∃ d', preprocess_country intYearDF twoColGDP = .ok d' ∧
      d'.rows.length = intYearDF.rows.length ∧
      ∀ j, j < intYearDF.rows.length →
        getCell (rowAt d' j).2 1 =
          (gdpLookup twoColGDP (getCell (rowAt intYearDF j).2 1)
            (pyStr (getCell (rowAt intYearDF j).2 0))).getD .na ∧
        getCell (rowAt d' j).2 2 =
          (gdpLookup twoColGDP (getCell (rowAt intYearDF j).2 2)
            (pyStr (getCell (rowAt intYearDF j).2 0))).getD .na :=
  C5_country_resolution_exact intYearDF twoColGDP 1 2 0
    (by decide) (by decide) (by decide) (by decide) (by decide)

/-- C6: whenever some record's (country code, rendered work_year) pair is
absent from the reference table, `preprocess_country` fails with a
resolution error for the whole batch — the failure is an `Except.error`
surfaced to the caller, never a coerced default value. -/
theorem C6_missing_pair_resolution_error (d gdp : DataFrame) (ci ei wi : Nat)
    (hci : colIdx d "company_location" = some ci)
    (hei : colIdx d "employee_residence" = some ei)
    (hwi : colIdx d "work_year" = some wi)
    (hfail : ∃ r ∈ d.rows,
      (gdpLookup gdp (getCell r.2 ci) (pyStr (getCell r.2 wi))).isSome = false ∨
      (gdpLookup gdp (getCell r.2 ei) (pyStr (getCell r.2 wi))).isSome = false) :
    ∃ code year, preprocess_country d gdp = .error (.resolution code year) := by
  by_cases hCL : ∀ r ∈ d.rows,
      (gdpLookup gdp (getCell r.2 ci) (pyStr (getCell r.2 wi))).isSome = true
  · -- the company_location pass succeeds, so the failing pair is in
    -- employee_residence; the first pass leaves those cells untouched
    set vsCL := d.rows.map
      (fun r => (gdpLookup gdp (getCell r.2 ci) (pyStr (getCell r.2 wi))).getD Value.na)
      with hvsCL
    have h1 : resolveColumn d gdp "company_location" = .ok (setColVals d ci vsCL) :=
      resolveColumn_ok d gdp _ ci wi hci hwi hCL
    set d1 := setColVals d ci vsCL with hd1
    obtain ⟨r, hr, hfr⟩ := hfail
    have hfr2 : (gdpLookup gdp (getCell r.2 ei) (pyStr (getCell r.2 wi))).isSome = false := by
      rcases hfr with h | h
      · rw [hCL r hr] at h; cases h
      · exact h
    obtain ⟨j, hj, hrj⟩ := List.mem_iff_getElem.mp hr
    have hciei : ci ≠ ei := colIdx_ne hci hei (by decide)
    have hciwi : ci ≠ wi := colIdx_ne hci hwi (by decide)
    have hlenCL : vsCL.length = d.rows.length := List.length_map _ _
    have hj1 : j < d1.rows.length := by
      rw [hd1, length_setColVals d ci vsCL hlenCL]; exact hj
    have hrow1 : rowAt d1 j = ((rowAt d j).1, (rowAt d j).2.set ci (vsCL.getD j .na)) :=
      rowAt_setColVals d ci vsCL j hj hlenCL
    have hrAt : rowAt d j = r := by rw [rowAt, List.getD_eq_getElem _ _ hj, hrj]
    have hfailER : ∃ r1 ∈ d1.rows,
        (gdpLookup gdp (getCell r1.2 ei) (pyStr (getCell r1.2 wi))).isSome = false := by
      refine ⟨rowAt d1 j, rowAt_mem hj1, ?_⟩
      rw [hrow1]
      show (gdpLookup gdp (getCell ((rowAt d j).2.set ci _) ei)
        (pyStr (getCell ((rowAt d j).2.set ci _) wi))).isSome = false
      rw [getCell_set_ne _ hciei, getCell_set_ne _ hciwi, hrAt]
      exact hfr2
    obtain ⟨code, year, herr⟩ :=
      resolveColumn_error d1 gdp "employee_residence" ei wi hei hwi hfailER
    refine ⟨code, year, ?_⟩
    show (resolveColumn d gdp "company_location").bind
      (fun da => resolveColumn da gdp "employee_residence") = _
    rw [h1]
    exact herr
  · -- some company_location pair already fails: the first pass aborts
    have hfailCL : ∃ r ∈ d.rows,
        (gdpLookup gdp (getCell r.2 ci) (pyStr (getCell r.2 wi))).isSome = false := by
      push_neg at hCL
      obtain ⟨r, hr, hfr⟩ := hCL
      exact ⟨r, hr, by simpa using hfr⟩
    obtain ⟨code, year, herr⟩ :=
      resolveColumn_error d gdp "company_location" ci wi hci hwi hfailCL
    refine ⟨code, year, ?_⟩
    show (resolveColumn d gdp "company_location").bind
      (fun da => resolveColumn da gdp "employee_residence") = _
    rw [herr]
    rfl

/-- Reference table without the year column the records need. -/
def missingYearGDP : DataFrame where
  cols := ["alpha_2", "2022"]
  rows := [(0, [.str "US", .int 999])]

/-- C6 witness: the single 2023 record against a table that only has a
2022 column. -/
theorem C6_resolution_error_witness :
    ∃ code year, preprocess_country intYearDF missingYearGDP =
      .error (.resolution code year) :=
  C6_missing_pair_resolution_error intYearDF missingYearGDP 1 2 0
    (by decide) (by decide) (by decide) (by decide)

/-! ### Helper lemmas for destructuring the numeric and categorical steps -/

lemma bindE_ok {α β : Type} (a : α) (k : α → Except PErr β) :
    (Except.ok a >>= k) = k a := rfl

lemma bindE_err {α β : Type} (e : PErr) (k : α → Except PErr β) :
    ((Except.error e : Except PErr α) >>= k) = .error e := rfl

lemma exceptMap_ok_length {α β : Type} {f : α → Except PErr β} :
    ∀ {l : List α} {ys : List β}, exceptMap f l = .ok ys → ys.length = l.length := by
  intro l
  induction l with
  | nil =>
    intro ys h
    obtain rfl : ([] : List β) = ys := Except.ok.inj h
    rfl
  | cons a l ih =>
    intro ys h
    simp only [exceptMap] at h
    cases hfa : f a with
    | error e => rw [hfa] at h; simp at h
    | ok y =>
      rw [hfa] at h
      cases hm : exceptMap f l with
      | error e => rw [hm] at h; simp at h
      | ok ys0 =>
        rw [hm] at h
        obtain rfl : y :: ys0 = ys := Except.ok.inj h
        simpa using ih hm

lemma length_colVals (d : DataFrame) (i : Nat) : (colVals d i).length = d.rows.length :=
  List.length_map _ _

lemma getElem_colVals (d : DataFrame) (i j : Nat) (hj : j < d.rows.length) :
    (colVals d i).getD j .na = getCell (rowAt d j).2 i := by
  have hj2 : j < (colVals d i).length := by rw [length_colVals]; exact hj
  rw [List.getD_eq_getElem _ _ hj2, rowAt, List.getD_eq_getElem _ _ hj]
  simp [colVals]

lemma colVals_setColVals_ne (d : DataFrame) (i : Nat) (vs : List Value) (m : Nat)
    (hlen : vs.length = d.rows.length) (hne : m ≠ i) :
    colVals (setColVals d i vs) m = colVals d m := by
  apply List.ext_getElem
  · simp [length_colVals, length_setColVals d i vs hlen]
  · intro j hj1 hj2
    have hj : j < d.rows.length := by
      simpa [length_colVals] using hj2
    have hjs : j < (setColVals d i vs).rows.length := by
      rw [length_setColVals d i vs hlen]; exact hj
    rw [← List.getD_eq_getElem (colVals (setColVals d i vs) m) .na hj1,
      ← List.getD_eq_getElem (colVals d m) .na hj2,
      getElem_colVals _ _ _ hjs, getElem_colVals _ _ _ hj,
      rowAt_setColVals d i vs j hj hlen]
    exact getCell_set_ne _ (fun h => hne h.symm)

lemma colVals_setColVals_self (d : DataFrame) (i : Nat) (vs : List Value)
    (hlen : vs.length = d.rows.length) (hbound : ∀ r ∈ d.rows, i < r.2.length) :
    colVals (setColVals d i vs) i = vs := by
  apply List.ext_getElem
  · simp [length_colVals, length_setColVals d i vs hlen, hlen]
  · intro j hj1 hj2
    have hj : j < d.rows.length := by omega
    have hjs : j < (setColVals d i vs).rows.length := by
      rw [length_setColVals d i vs hlen]; exact hj
    rw [← List.getD_eq_getElem (colVals (setColVals d i vs) i) .na hj1,
      ← List.getD_eq_getElem vs .na hj2,
      getElem_colVals _ _ _ hjs, rowAt_setColVals d i vs j hj hlen]
    exact getCell_set_self _ (hbound _ (rowAt_mem hj))

lemma okOr_toRatE (v : Value) : okOr (toRatE v) 0 = Value.toRatD v := by
  unfold toRatE Value.toRatD
  cases v.toRat? <;> rfl

lemma toRatE_isOk (v : Value) : (toRatE v).isOk = (v.toRat?).isSome := by
  unfold toRatE
  cases v.toRat? <;> rfl

lemma toRatD_mkNum (q : ℚ) : Value.toRatD (mkNum q) = q := by
  unfold mkNum
  by_cases h : q.den = 1
  · rw [if_pos h]
    show (q.num : ℚ) = q
    conv_rhs => rw [← Rat.num_div_den q]
    rw [h]
    norm_num
  · rw [if_neg h]
    rfl

lemma length_winsorizeScipy (a : List ℚ) : (winsorizeScipy a).length = a.length := by
  simp [winsorizeScipy]

/-- Destructure a successful `preprocess_numbers` run into its two
column writes. -/
lemma preprocess_numbers_spec (d d' : DataFrame) (wi si : Nat)
    (hwi : colIdx d "work_year" = some wi)
    (hsi : colIdx d "salary_in_usd" = some si)
    (h : preprocess_numbers d = .ok d') :
    ∃ wvals svals,
      exceptMap castInt (colVals d wi) = .ok wvals ∧
      exceptMap toRatE (colVals (setColVals d wi wvals) si) = .ok svals ∧
      d' = setColVals (setColVals d wi wvals) si ((winsorizeScipy svals).map mkNum) := by
  unfold preprocess_numbers at h
  simp only [hwi] at h
  cases hw : exceptMap castInt (colVals d wi) with
  | error e => rw [hw, bindE_err] at h; cases h
  | ok wvals =>
    rw [hw, bindE_ok] at h
    have hsi2 : colIdx (setColVals d wi wvals) "salary_in_usd" = some si := hsi
    simp only [hsi2] at h
    cases hs : exceptMap toRatE (colVals (setColVals d wi wvals) si) with
    | error e => rw [hs, bindE_err] at h; cases h
    | ok svals =>
      rw [hs, bindE_ok] at h
      exact ⟨wvals, svals, rfl, hs, (Except.ok.inj h).symm⟩

lemma mapColumn_ok (d : DataFrame) (c : String) (i : Nat) (f : Value → Value)
    (hc : colIdx d c = some i) :
    mapColumn d c f =
      .ok { d with rows := d.rows.map (fun r => (r.1, r.2.set i (f (getCell r.2 i)))) } := by
  unfold mapColumn
  simp only [hc]

/-- C10: `clean_data` and `preprocess_title` leave the caller's frame
untouched (pure rebinding), while `process_categoricals`,
`preprocess_country`, and `preprocess_numbers` mutate it in place: after
`process_categoricals` the caller's frame carries the two ordinal
encodings (the one-hot columns exist only in the returned frame), and
after the other two the caller's frame is exactly the returned, fully
processed frame; in each case every column other than the step's targets
is unchanged, as are labels, row count and column names. -/
theorem C10_in_place_mutation :
    (∀ d : DataFrame, clean_data_arg d = d) ∧
    (∀ (d : DataFrame) (v : Vectorizer), preprocess_title_arg d v = d) ∧
    (∀ (d d1 : DataFrame) (csi eli : Nat),
      colIdx d "company_size" = some csi →
      colIdx d "experience_level" = some eli →
      (∀ r ∈ d.rows, r.2.length = d.cols.length) →
      process_categoricals_arg d = .ok d1 →
      d1.cols = d.cols ∧ d1.rows.length = d.rows.length ∧
      ∀ j, j < d.rows.length →
        (rowAt d1 j).1 = (rowAt d j).1 ∧
        getCell (rowAt d1 j).2 csi =
          mapOrdVal [("S", 1), ("M", 2), ("L", 3)] (getCell (rowAt d j).2 csi) ∧
        getCell (rowAt d1 j).2 eli =
          mapOrdVal [("EN", 1), ("MI", 2), ("SE", 3), ("EX", 4)] (getCell (rowAt d j).2 eli) ∧
        ∀ m, m ≠ csi → m ≠ eli →
          getCell (rowAt d1 j).2 m = getCell (rowAt d j).2 m) ∧
    (∀ (d gdp : DataFrame) (ci ei wi : Nat),
      (∀ r ∈ d.rows, r.2.length = d.cols.length) →
      colIdx d "company_location" = some ci →
      colIdx d "employee_residence" = some ei →
      colIdx d "work_year" = some wi →
      (∀ r ∈ d.rows,
        (gdpLookup gdp (getCell r.2 ci) (pyStr (getCell r.2 wi))).isSome = true ∧
        (gdpLookup gdp (getCell r.2 ei) (pyStr (getCell r.2 wi))).isSome = true) →
      ∃ d', preprocess_country d gdp = .ok d' ∧
        preprocess_country_arg d gdp = .ok d' ∧
        d'.cols = d.cols ∧
        d'.rows.length = d.rows.length ∧
        ∀ j, j < d.rows.length →
          (rowAt d' j).1 = (rowAt d j).1 ∧
          ∀ m, m ≠ ci → m ≠ ei →
            getCell (rowAt d' j).2 m = getCell (rowAt d j).2 m) ∧
    (∀ (d d' : DataFrame) (wi si : Nat),
      colIdx d "work_year" = some wi →
      colIdx d "salary_in_usd" = some si →
      preprocess_numbers d = .ok d' →
      preprocess_numbers_arg d = .ok d' ∧
      d'.cols = d.cols ∧
      d'.rows.length = d.rows.length ∧
      ∀ j, j < d.rows.length →
        (rowAt d' j).1 = (rowAt d j).1 ∧
        ∀ m, m ≠ wi → m ≠ si →
          getCell (rowAt d' j).2 m = getCell (rowAt d j).2 m) := by
  refine ⟨fun d => rfl, fun d v => rfl, ?_, ?_, ?_⟩
  · -- process_categoricals_arg: the two in-place ordinal maps
    intro d d1 csi eli hcsi heli hwf h
    have hcsieli : csi ≠ eli := colIdx_ne hcsi heli (by decide)
    unfold process_categoricals_arg at h
    rw [mapColumn_ok d "company_size" csi _ hcsi, bindE_ok] at h
    have heli2 : colIdx (DataFrame.mk d.cols (d.rows.map (fun r =>
        (r.1, r.2.set csi (mapOrdVal [("S", 1), ("M", 2), ("L", 3)] (getCell r.2 csi))))))
        "experience_level" = some eli := heli
    rw [mapColumn_ok _ "experience_level" eli _ heli2] at h
    obtain rfl := (Except.ok.inj h).symm
    refine ⟨rfl, by simp, ?_⟩
    intro j hj
    have hjS : j < (d.rows.map (fun r =>
        (r.1, r.2.set csi (mapOrdVal [("S", 1), ("M", 2), ("L", 3)] (getCell r.2 csi))))).length := by
      simpa using hj
    have hrow : rowAt (DataFrame.mk d.cols ((d.rows.map (fun r =>
        (r.1, r.2.set csi (mapOrdVal [("S", 1), ("M", 2), ("L", 3)] (getCell r.2 csi))))).map
        (fun r => (r.1, r.2.set eli
          (mapOrdVal [("EN", 1), ("MI", 2), ("SE", 3), ("EX", 4)] (getCell r.2 eli)))))) j =
        ((rowAt d j).1,
          ((rowAt d j).2.set csi (mapOrdVal [("S", 1), ("M", 2), ("L", 3)]
              (getCell (rowAt d j).2 csi))).set eli
            (mapOrdVal [("EN", 1), ("MI", 2), ("SE", 3), ("EX", 4)]
              (getCell ((rowAt d j).2.set csi (mapOrdVal [("S", 1), ("M", 2), ("L", 3)]
                (getCell (rowAt d j).2 csi))) eli))) := by
      show (((d.rows.map _).map _)).getD j (0, []) = _
      rw [getD_map_list _ (d.rows.map (fun r =>
          (r.1, r.2.set csi (mapOrdVal [("S", 1), ("M", 2), ("L", 3)] (getCell r.2 csi)))))
          j (0, []) (0, []) hjS,
        getD_map_list _ d.rows j (0, []) (0, []) hj]
      rfl
    have hbound : csi < (rowAt d j).2.length := by
      rw [hwf (rowAt d j) (rowAt_mem hj)]
      exact colIdx_lt hcsi
    have hbound2 : eli < ((rowAt d j).2.set csi (mapOrdVal [("S", 1), ("M", 2), ("L", 3)]
        (getCell (rowAt d j).2 csi))).length := by
      rw [List.length_set, hwf (rowAt d j) (rowAt_mem hj)]
      exact colIdx_lt heli
    refine ⟨by rw [hrow], ?_, ?_, ?_⟩
    · rw [hrow]
      show getCell (((rowAt d j).2.set csi _).set eli _) csi = _
      rw [getCell_set_ne _ hcsieli.symm, getCell_set_self _ hbound]
    · rw [hrow]
      show getCell (((rowAt d j).2.set csi _).set eli _) eli = _
      rw [getCell_set_self _ hbound2, getCell_set_ne _ hcsieli]
    · intro m hmcs hmel
      rw [hrow]
      show getCell (((rowAt d j).2.set csi _).set eli _) m = _
      rw [getCell_set_ne _ (fun hq => hmel hq.symm),
        getCell_set_ne _ (fun hq => hmcs hq.symm)]
  · -- preprocess_country mutates in place: the returned frame is the arg
    intro d gdp ci ei wi hwf hci hei hwi hall
    obtain ⟨dr, hok, hcols, hlen, hcells⟩ :=
      preprocess_country_spec d gdp ci ei wi hwf hci hei hwi hall
    exact ⟨dr, hok, hok, hcols, hlen,
      fun j hj => ⟨(hcells j hj).1, (hcells j hj).2.2.2⟩⟩
  · -- preprocess_numbers mutates in place: the returned frame is the arg
    intro d d' wi si hwi hsi h
    obtain ⟨wvals, svals, hw, hs, hd'⟩ := preprocess_numbers_spec d d' wi si hwi hsi h
    have hlw : wvals.length = d.rows.length := by
      rw [exceptMap_ok_length hw, length_colVals]
    have hls : svals.length = d.rows.length := by
      rw [exceptMap_ok_length hs, length_colVals, length_setColVals d wi wvals hlw]
    have hlv : ((winsorizeScipy svals).map mkNum).length = d.rows.length := by
      rw [List.length_map, length_winsorizeScipy, hls]
    have hlen1 : (setColVals d wi wvals).rows.length = d.rows.length :=
      length_setColVals d wi wvals hlw
    subst hd'
    refine ⟨h, rfl, ?_, ?_⟩
    · rw [length_setColVals _ si _ (by rw [hlv, hlen1]), hlen1]
    · intro j hj
      have hj1 : j < (setColVals d wi wvals).rows.length := by omega
      have hrow2 : rowAt (setColVals (setColVals d wi wvals) si
          ((winsorizeScipy svals).map mkNum)) j =
          ((rowAt (setColVals d wi wvals) j).1,
            (rowAt (setColVals d wi wvals) j).2.set si
              (((winsorizeScipy svals).map mkNum).getD j .na)) :=
        rowAt_setColVals _ si _ j hj1 (by rw [hlv, hlen1])
      have hrow1 : rowAt (setColVals d wi wvals) j =
          ((rowAt d j).1, (rowAt d j).2.set wi (wvals.getD j .na)) :=
        rowAt_setColVals d wi wvals j hj hlw
      refine ⟨by rw [hrow2, hrow1], ?_⟩
      intro m hmwi hmsi
      rw [hrow2]
      show getCell ((rowAt (setColVals d wi wvals) j).2.set si _) m = _
      rw [getCell_set_ne _ (fun hq => hmsi hq.symm), hrow1]
      show getCell ((rowAt d j).2.set wi _) m = _
      rw [getCell_set_ne _ (fun hq => hmwi hq.symm)]

/-- Small frame with the two numeric columns. -/
def numbersDF : DataFrame where
  cols := ["work_year", "salary_in_usd"]
  rows := [(0, [.int 2023, .int 100]), (1, [.int 2023, .int 50])]

/-- C10 witness: each component of the mutation theorem applied at a
concrete frame. -/
theorem C10_mutation_witness :
    clean_data_arg dupDF = dupDF ∧
    preprocess_title_arg dupDF (fitTfidfVectorizer ["Data Scientist"]) = dupDF ∧
    (∃ d1, process_categoricals_arg scenarioDF = .ok d1 ∧
      d1.cols = scenarioDF.cols ∧ d1.rows.length = scenarioDF.rows.length ∧
      ∀ j, j < scenarioDF.rows.length →
        getCell (rowAt d1 j).2 7 =
          mapOrdVal [("S", 1), ("M", 2), ("L", 3)] (getCell (rowAt scenarioDF j).2 7)) ∧
    (∃ d', preprocess_country intYearDF twoColGDP = .ok d' ∧
      preprocess_country_arg intYearDF twoColGDP = .ok d' ∧ d'.cols = intYearDF.cols) ∧
    (∃ d', preprocess_numbers numbersDF = .ok d' ∧
      preprocess_numbers_arg numbersDF = .ok d' ∧ d'.cols = numbersDF.cols) := by
  obtain ⟨c1, c2, c3, c4, c5⟩ := C10_in_place_mutation
  refine ⟨c1 dupDF, c2 dupDF _, ?_, ?_, ?_⟩
  · obtain ⟨d1, hd1⟩ : ∃ d1, process_categoricals_arg scenarioDF = .ok d1 := ⟨_, rfl⟩
    obtain ⟨hcols, hlen, hcells⟩ :=
      c3 scenarioDF d1 7 1 (by decide) (by decide) (by decide) hd1
    exact ⟨d1, hd1, hcols, hlen, fun j hj => (hcells j hj).2.1⟩
  · obtain ⟨d', hok, harg, hcols, _⟩ :=
      c4 intYearDF twoColGDP 1 2 0 (by decide) (by decide) (by decide) (by decide) (by decide)
    exact ⟨d', hok, harg, hcols⟩
  · obtain ⟨d', hd'⟩ : ∃ d', preprocess_numbers numbersDF = .ok d' := ⟨_, rfl⟩
    obtain ⟨harg, hcols, _⟩ := c5 numbersDF d' 0 1 (by decide) (by decide) hd'
    exact ⟨d', hd', harg, hcols⟩

/-! ### Helper lemmas for the title-vectorization step -/

/-- The titles read from column `ji` (post-cleaning these cells are
strings; non-strings read as `""` only in the unreachable default). -/
def titlesOf (d : DataFrame) (ji : Nat) : List String :=
  (colVals d ji).map (fun x => okOr (titleString x) "")

lemma find?_label_range' :
    ∀ (rows : List (Nat × List Value)) (s : Nat),
      rows.map Prod.fst = List.range' s rows.length →
      ∀ j, s ≤ j → j < s + rows.length →
        rows.find? (fun r => decide (r.1 = j)) = some (rows.getD (j - s) (0, [])) := by
  intro rows
  induction rows with
  | nil => intro s _ j hsj hj; simp at hj; omega
  | cons r rs ih =>
    intro s hl j hsj hj
    rw [List.length_cons, List.range'_succ] at hl
    obtain ⟨hr1, hrs⟩ := List.cons.inj (by simpa using hl)
    by_cases hjs : j = s
    · subst hjs
      rw [List.find?_cons_of_pos _ (by simp [hr1]), Nat.sub_self]
      rfl
    · rw [List.find?_cons_of_neg _ (by simp only [hr1, decide_eq_true_eq]; omega)]
      have hge : s + 1 ≤ j := by omega
      have hlt : j < (s + 1) + rs.length := by
        rw [List.length_cons] at hj; omega
      rw [ih (s + 1) hrs j hge hlt]
      have hsub : j - s = (j - (s + 1)) + 1 := by omega
      rw [hsub]
      rfl

lemma find?_label_range (rows : List (Nat × List Value))
    (hl : rows.map Prod.fst = List.range rows.length) (j : Nat) (hj : j < rows.length) :
    rows.find? (fun r => decide (r.1 = j)) = some (rows.getD j (0, [])) := by
  have := find?_label_range' rows 0 (by rw [hl, List.range_eq_range']) j (Nat.zero_le j)
    (by omega)
  simpa using this

lemma dropColumns_labels (d : DataFrame) (names : List String) :
    (dropColumns d names).rows.map Prod.fst = d.rows.map Prod.fst := by
  simp [dropColumns, List.map_map]

lemma dropColumns_length (d : DataFrame) (names : List String) :
    (dropColumns d names).rows.length = d.rows.length := by
  simp [dropColumns]

lemma rowAt_dropColumns (d : DataFrame) (names : List String) (j : Nat)
    (hj : j < d.rows.length) :
    rowAt (dropColumns d names) j =
      ((rowAt d j).1,
        filterMask (d.cols.map (fun c => !decide (c ∈ names))) (rowAt d j).2) := by
  show (d.rows.map _).getD j (0, []) = _
  rw [getD_map_list _ d.rows j (0, []) (0, []) hj]
  rfl

lemma vectorFrame_labels (v : Vectorizer) (titles : List String) :
    (vectorFrame v titles).rows.map Prod.fst = List.range titles.length := by
  show ((List.range titles.length).map _).map _ = _
  rw [List.map_map]
  exact List.map_id _

lemma rowAt_vectorFrame (v : Vectorizer) (titles : List String) (j : Nat)
    (hj : j < titles.length) :
    rowAt (vectorFrame v titles) j =
      (j, v.vocab.map (fun t => Value.float (termWeight v t (titles.getD j "")))) := by
  show ((List.range titles.length).map _).getD j (0, []) = _
  rw [getD_map_list _ (List.range titles.length) j 0 (0, []) (by simpa using hj),
    List.getD_eq_getElem _ _ (by simpa using hj), List.getElem_range]

lemma length_titlesOf (d : DataFrame) (ji : Nat) :
    (titlesOf d ji).length = d.rows.length := by
  simp [titlesOf, length_colVals]

/-- C7: applying a fitted vectorizer appends exactly one numeric column
per vocabulary term, named `job_title_<term>`, whose value in each record
is that term's weight for the record's title (0 whenever the term does
not occur in the title); title terms outside the vocabulary are silently
ignored (the call succeeds and the columns are determined by the
vocabulary alone), and the original `job_title` column is dropped. -/
theorem C7_title_vectorization (d : DataFrame) (v : Vectorizer) (ji : Nat)
    (hji : colIdx d "job_title" = some ji)
    (hlabels : d.rows.map Prod.fst = List.range d.rows.length)
    (htitles : ∀ r ∈ d.rows, (titleString (getCell r.2 ji)).isOk = true) :
    ∃ out, preprocess_title d v = .ok out ∧
      out.cols = d.cols.filter (fun c => !decide (c ∈ (["job_title"] : List String))) ++
        v.vocab.map (fun t => "job_title_" ++ t) ∧
      (v.vocab.map (fun t => "job_title_" ++ t)).length = v.vocab.length ∧
      "job_title" ∉ out.cols ∧
      out.rows.length = d.rows.length ∧
      (∀ j, j < d.rows.length →
        (rowAt out j).1 = j ∧
        (rowAt out j).2 =
          filterMask (d.cols.map (fun c => !decide (c ∈ (["job_title"] : List String))))
            (rowAt d j).2 ++
          v.vocab.map (fun t => Value.float (termWeight v t ((titlesOf d ji).getD j "")))) ∧
      (∀ t title, t ∉ tokenize title → termWeight v t title = 0) := by
  have htmap : exceptMap titleString (colVals d ji) = .ok (titlesOf d ji) := by
    apply exceptMap_eq_ok_map
    intro x hx
    obtain ⟨r, hr, hrx⟩ := List.mem_map.mp hx
    exact hrx ▸ htitles r hr
  have hout : preprocess_title d v =
      .ok (concatCols (dropColumns d ["job_title"]) (vectorFrame v (titlesOf d ji))) := by
    unfold preprocess_title
    simp only [hji]
    rw [htmap, bindE_ok]
    rfl
  set m := d.rows.length with hm
  set d1 := dropColumns d ["job_title"] with hd1
  set jv := vectorFrame v (titlesOf d ji) with hjv
  have hl1 : d1.rows.map Prod.fst = List.range d1.rows.length := by
    rw [hd1, dropColumns_labels, dropColumns_length, hlabels]
  have hl2 : jv.rows.map Prod.fst = List.range jv.rows.length := by
    rw [hjv, vectorFrame_labels]
    congr 1
    simp [vectorFrame]
  have hlen1 : d1.rows.length = m := by rw [hd1, dropColumns_length]
  have hlen2 : jv.rows.length = m := by
    rw [hjv]; simp [vectorFrame, length_titlesOf]
  have hmerged : mergedLabels (d1.rows.map Prod.fst) (jv.rows.map Prod.fst) = List.range m := by
    rw [mergedLabels, if_pos (by rw [hl1, hl2, hlen1, hlen2]), hl1, hlen1]
  have hrows : (concatCols d1 jv).rows =
      (List.range m).map (fun lab => (lab, cellsOf d1 lab ++ cellsOf jv lab)) := by
    show (mergedLabels (d1.rows.map (fun r => r.1)) (jv.rows.map (fun r => r.1))).map _ = _
    rw [show (d1.rows.map (fun r => r.1)) = (d1.rows.map Prod.fst) from rfl,
      show (jv.rows.map (fun r => r.1)) = (jv.rows.map Prod.fst) from rfl, hmerged]
  refine ⟨concatCols d1 jv, hout, ?_, by simp, ?_, ?_, ?_, ?_⟩
  · show d1.cols ++ jv.cols = _
    rw [hd1, hjv]
    show filterMask (d.cols.map _) d.cols ++ _ = _
    rw [filterMask_map_self]
    rfl
  · -- job_title is gone: neither kept by the filter nor a prefixed name
    show "job_title" ∉ d1.cols ++ jv.cols
    intro hmem
    rcases List.mem_append.mp hmem with hmem | hmem
    · rw [hd1] at hmem
      show False
      have : "job_title" ∈ filterMask (d.cols.map (fun c =>
          !decide (c ∈ (["job_title"] : List String)))) d.cols := hmem
      rw [filterMask_map_self] at this
      simpa using (List.mem_filter.mp this).2
    · rw [hjv] at hmem
      obtain ⟨t, _, ht⟩ := List.mem_map.mp hmem
      have hlen := congrArg String.length ht
      rw [String.length_append] at hlen
      have h1 : ("job_title_" : String).length = 10 := rfl
      have h2 : ("job_title" : String).length = 9 := rfl
      omega
  · rw [hrows]
    simp
  · intro j hj
    have hrj : rowAt (concatCols d1 jv) j = (j, cellsOf d1 j ++ cellsOf jv j) := by
      rw [rowAt, hrows, getD_map_list _ (List.range m) j 0 (0, []) (by simpa using hj),
        List.getD_eq_getElem _ _ (by simpa using hj), List.getElem_range]
    have hc1 : cellsOf d1 j = filterMask (d.cols.map (fun c =>
        !decide (c ∈ (["job_title"] : List String)))) (rowAt d j).2 := by
      rw [cellsOf, find?_label_range d1.rows hl1 j (by omega)]
      show (rowAt d1 j).2 = _
      rw [hd1, rowAt_dropColumns d _ j hj]
    have hc2 : cellsOf jv j =
        v.vocab.map (fun t => Value.float (termWeight v t ((titlesOf d ji).getD j ""))) := by
      rw [cellsOf, find?_label_range jv.rows hl2 j (by omega)]
      show (rowAt jv j).2 = _
      rw [hjv, rowAt_vectorFrame v _ j (by rw [length_titlesOf]; exact hj)]
    rw [hrj, hc1, hc2]
    exact ⟨rfl, rfl⟩
  · intro t title ht
    unfold termWeight
    rw [List.count_eq_zero.mpr ht]
    simp

/-- One-record frame with a job title column. -/
def jobTitleDF : DataFrame where
  cols := ["job_title", "salary_in_usd"]
  rows := [(0, [.str "Data Scientist", .int 100])]

/-- C7 witness: the vectorizer fitted on one title applied to a one-row
frame with default labels. -/
theorem C7_vectorization_witness :
    ∃ out, preprocess_title jobTitleDF (fitTfidfVectorizer ["Data Scientist"]) = .ok out ∧
      out.cols = jobTitleDF.cols.filter
          (fun c => !decide (c ∈ (["job_title"] : List String))) ++
        (fitTfidfVectorizer ["Data Scientist"]).vocab.map (fun t => "job_title_" ++ t) ∧
      ((fitTfidfVectorizer ["Data Scientist"]).vocab.map (fun t => "job_title_" ++ t)).length =
        (fitTfidfVectorizer ["Data Scientist"]).vocab.length ∧
      "job_title" ∉ out.cols ∧
      out.rows.length = jobTitleDF.rows.length ∧
      (∀ j, j < jobTitleDF.rows.length →
        (rowAt out j).1 = j ∧
        (rowAt out j).2 =
          filterMask (jobTitleDF.cols.map
              (fun c => !decide (c ∈ (["job_title"] : List String))))
            (rowAt jobTitleDF j).2 ++
          (fitTfidfVectorizer ["Data Scientist"]).vocab.map
            (fun t => Value.float (termWeight (fitTfidfVectorizer ["Data Scientist"]) t
              ((titlesOf jobTitleDF 0).getD j "")))) ∧
      (∀ t title, t ∉ tokenize title →
        termWeight (fitTfidfVectorizer ["Data Scientist"]) t title = 0) :=
  C7_title_vectorization jobTitleDF (fitTfidfVectorizer ["Data Scientist"]) 0
    (by decide) (by decide) (by decide)

/-! ### Winsorization: the rank-based scipy procedure equals two-sided
clamping at the 1st and 99th percentile values -/

/-- Clamp `x` into `[lo, hi]` (the spec's description of winsorization). -/
def clampQ (lo hi x : ℚ) : ℚ := if x < lo then lo else if hi < x then hi else x

/-- The numeric salary column of a frame. -/
def salaryQ (d : DataFrame) (si : Nat) : List ℚ := (colVals d si).map Value.toRatD

lemma map_getD_range (a : List ℚ) :
    (List.range a.length).map (fun i => a.getD i 0) = a := by
  apply List.ext_getElem
  · simp
  · intro j h1 h2
    simp only [List.getElem_map, List.getElem_range]
    exact List.getD_eq_getElem a 0 h2

lemma sorted_getD_mono {l : List ℚ} (hs : List.Sorted (· ≤ ·) l) {x y : Nat}
    (hxy : x ≤ y) (hy : y < l.length) : l.getD x 0 ≤ l.getD y 0 := by
  have hx : x < l.length := lt_of_le_of_lt hxy hy
  rw [List.getD_eq_getElem _ _ hx, List.getD_eq_getElem _ _ hy]
  exact hs.rel_get_of_le (show (⟨x, hx⟩ : Fin l.length) ≤ ⟨y, hy⟩ from hxy)

lemma sortedQ_sorted (a : List ℚ) : List.Sorted (· ≤ ·) (sortedQ a) :=
  List.sorted_insertionSort _ a

lemma sortedQ_perm (a : List ℚ) : (sortedQ a).Perm a := List.perm_insertionSort _ a

lemma sortedQ_length (a : List ℚ) : (sortedQ a).length = a.length :=
  List.length_insertionSort _ a

lemma argsortQ_perm (a : List ℚ) : (argsortQ a).Perm (List.range a.length) :=
  List.perm_insertionSort _ _

lemma argsortQ_length (a : List ℚ) : (argsortQ a).length = a.length :=
  (argsortQ_perm a).length_eq.trans (List.length_range _)

lemma argsortQ_sorted (a : List ℚ) :
    List.Sorted (fun i j => a.getD i 0 ≤ a.getD j 0) (argsortQ a) := by
  haveI : IsTotal Nat (fun i j : Nat => a.getD i 0 ≤ a.getD j 0) :=
    ⟨fun i j => le_total _ _⟩
  haveI : IsTrans Nat (fun i j : Nat => a.getD i 0 ≤ a.getD j 0) :=
    ⟨fun i j l h1 h2 => le_trans h1 h2⟩
  exact List.sorted_insertionSort _ _

/-- Reading the column through the argsort ordering produces the sorted
column. -/
lemma smap_eq_sortedQ (a : List ℚ) :
    (argsortQ a).map (fun i => a.getD i 0) = sortedQ a := by
  have hperm : ((argsortQ a).map (fun i => a.getD i 0)).Perm (sortedQ a) := by
    have h1 : ((argsortQ a).map (fun i => a.getD i 0)).Perm
        ((List.range a.length).map (fun i => a.getD i 0)) := (argsortQ_perm a).map _
    rw [map_getD_range a] at h1
    exact h1.trans (sortedQ_perm a).symm
  exact List.eq_of_perm_of_sorted hperm
    (List.pairwise_map.mpr (argsortQ_sorted a)) (sortedQ_sorted a)

lemma argsortQ_rank (a : List ℚ) (i : Nat) (hi : i < a.length) :
    (argsortQ a).indexOf i < a.length ∧
      (argsortQ a).getD ((argsortQ a).indexOf i) 0 = i := by
  have hmem : i ∈ argsortQ a := (argsortQ_perm a).mem_iff.mpr (List.mem_range.mpr hi)
  have hlt : (argsortQ a).indexOf i < (argsortQ a).length := List.indexOf_lt_length.mpr hmem
  refine ⟨by rw [← argsortQ_length a]; exact hlt, ?_⟩
  rw [List.getD_eq_getElem _ _ hlt]
  exact List.indexOf_get hlt

/-- The value at position `i` sits at its argsort rank in the sorted
column. -/
lemma aD_eq_sortedQ_rank (a : List ℚ) (i : Nat) (hi : i < a.length) :
    a.getD i 0 = (sortedQ a).getD ((argsortQ a).indexOf i) 0 := by
  obtain ⟨hp, hgi⟩ := argsortQ_rank a i hi
  rw [← smap_eq_sortedQ,
    getD_map_list (fun i => a.getD i 0) (argsortQ a) _ 0 0
      (by rw [argsortQ_length]; exact hp),
    hgi]

lemma pct01_le_pct99 (a : List ℚ) (h : a ≠ []) : pct01 a ≤ pct99 a := by
  have hn : 1 ≤ a.length := List.length_pos.mpr h
  have hk : a.length / 100 ≤ a.length - 1 - a.length / 100 := by omega
  have hy : a.length - 1 - a.length / 100 < (sortedQ a).length := by
    rw [sortedQ_length]; omega
  exact sorted_getD_mono (sortedQ_sorted a) hk hy

/-- The scipy winsorization procedure — replace the `k` lowest ranks by
the value of rank `k` and the `k` highest ranks by the value of rank
`n - k - 1` — is two-sided clamping at the two percentile values. -/
lemma winsorizeScipy_eq_clamp (a : List ℚ) :
    winsorizeScipy a = a.map (clampQ (pct01 a) (pct99 a)) := by
  by_cases ha : a = []
  · subst ha; rfl
  have hn1 : 1 ≤ a.length := List.length_pos.mpr ha
  have hkn : a.length / 100 < a.length := by omega
  have hk3 : a.length - 1 - a.length / 100 < a.length := by omega
  have hsq : (sortedQ a).length = a.length := sortedQ_length a
  have hlo : a.getD ((argsortQ a).getD (a.length / 100) 0) 0 = pct01 a := by
    rw [pct01, ← smap_eq_sortedQ,
      getD_map_list (fun i => a.getD i 0) (argsortQ a) _ 0 0
        (by rw [argsortQ_length]; exact hkn)]
  have hhi : a.getD ((argsortQ a).getD (a.length - 1 - a.length / 100) 0) 0 = pct99 a := by
    rw [pct99, ← smap_eq_sortedQ,
      getD_map_list (fun i => a.getD i 0) (argsortQ a) _ 0 0
        (by rw [argsortQ_length]; exact hk3)]
  apply List.ext_getElem
  · simp [winsorizeScipy]
  · intro j h1 h2
    have hj : j < a.length := by simpa using h2
    simp only [winsorizeScipy, List.getElem_map, List.getElem_range]
    rw [← List.getD_eq_getElem a 0 hj]
    obtain ⟨hpj, hgj⟩ := argsortQ_rank a j hj
    have hval : a.getD j 0 = (sortedQ a).getD ((argsortQ a).indexOf j) 0 :=
      aD_eq_sortedQ_rank a j hj
    by_cases hc1 : (argsortQ a).indexOf j < a.length / 100
    · -- low tail: the value is at most the 1st percentile
      have hle : a.getD j 0 ≤ pct01 a := by
        rw [hval, pct01]
        exact sorted_getD_mono (sortedQ_sorted a) (le_of_lt hc1) (by rw [hsq]; exact hkn)
      rw [if_pos hc1, hlo]
      unfold clampQ
      by_cases hlt : a.getD j 0 < pct01 a
      · rw [if_pos hlt]
      · have heq : a.getD j 0 = pct01 a := le_antisymm hle (not_lt.mp hlt)
        rw [if_neg hlt, if_neg (by rw [heq]; exact not_lt.mpr (pct01_le_pct99 a ha)), heq]
    · by_cases hc2 : a.length - a.length / 100 ≤ (argsortQ a).indexOf j
      · -- high tail: the value is at least the 99th percentile
        have hge : pct99 a ≤ a.getD j 0 := by
          rw [hval, pct99]
          exact sorted_getD_mono (sortedQ_sorted a) (by omega) (by rw [hsq]; exact hpj)
        rw [if_neg hc1, if_pos hc2, hhi]
        unfold clampQ
        have hnotlt : ¬ (a.getD j 0 < pct01 a) :=
          not_lt.mpr (le_trans (pct01_le_pct99 a ha) hge)
        by_cases hgt : pct99 a < a.getD j 0
        · rw [if_neg hnotlt, if_pos hgt]
        · have heq : a.getD j 0 = pct99 a := le_antisymm (not_lt.mp hgt) hge
          rw [if_neg hnotlt, if_neg hgt, heq]
      · -- middle: untouched, and already within the two bounds
        have hge : pct01 a ≤ a.getD j 0 := by
          rw [hval, pct01]
          exact sorted_getD_mono (sortedQ_sorted a) (not_lt.mp hc1) (by rw [hsq]; exact hpj)
        have hle : a.getD j 0 ≤ pct99 a := by
          rw [hval, pct99]
          exact sorted_getD_mono (sortedQ_sorted a) (by omega) (by rw [hsq]; omega)
        rw [if_neg hc1, if_neg hc2]
        unfold clampQ
        rw [if_neg (not_lt.mpr hge), if_neg (not_lt.mpr hle)]

lemma clampQ_bounds {lo hi : ℚ} (h : lo ≤ hi) (x : ℚ) :
    lo ≤ clampQ lo hi x ∧ clampQ lo hi x ≤ hi := by
  unfold clampQ
  split_ifs with h1 h2
  · exact ⟨le_refl _, h⟩
  · exact ⟨h, le_refl _⟩
  · exact ⟨not_lt.mp h1, not_lt.mp h2⟩

/-- C3: after `preprocess_numbers`, the salary column is the scipy
winsorization of the original column, which clamps exactly the entries
beyond the pre-winsorization 1st/99th percentile values and leaves every
entry within the bounds unchanged; no value exceeds the 99th or falls
below the 1st percentile. -/
theorem C3_salary_winsorization (d d' : DataFrame) (wi si : Nat)
    (hwf : ∀ r ∈ d.rows, r.2.length = d.cols.length)
    (hwi : colIdx d "work_year" = some wi)
    (hsi : colIdx d "salary_in_usd" = some si)
    (h : preprocess_numbers d = .ok d') :
    salaryQ d' si = winsorizeScipy (salaryQ d si) ∧
    salaryQ d' si = (salaryQ d si).map
      (clampQ (pct01 (salaryQ d si)) (pct99 (salaryQ d si))) ∧
    (∀ x ∈ salaryQ d' si, pct01 (salaryQ d si) ≤ x ∧ x ≤ pct99 (salaryQ d si)) ∧
    (∀ j, j < (salaryQ d si).length →
      ((salaryQ d si).getD j 0 < pct01 (salaryQ d si) →
        (salaryQ d' si).getD j 0 = pct01 (salaryQ d si)) ∧
      (pct99 (salaryQ d si) < (salaryQ d si).getD j 0 →
        (salaryQ d' si).getD j 0 = pct99 (salaryQ d si)) ∧
      (pct01 (salaryQ d si) ≤ (salaryQ d si).getD j 0 →
        (salaryQ d si).getD j 0 ≤ pct99 (salaryQ d si) →
        (salaryQ d' si).getD j 0 = (salaryQ d si).getD j 0)) := by
  have hsiwi : si ≠ wi := colIdx_ne hsi hwi (by decide)
  obtain ⟨wvals, svals, hw, hs, hd'⟩ := preprocess_numbers_spec d d' wi si hwi hsi h
  have hlw : wvals.length = d.rows.length := by
    rw [exceptMap_ok_length hw, length_colVals]
  have hcv1 : colVals (setColVals d wi wvals) si = colVals d si :=
    colVals_setColVals_ne d wi wvals si hlw hsiwi
  have hsvals : svals = salaryQ d si := by
    have hiok := exceptMap_ok_forall hs
    have hmap := exceptMap_eq_ok_map toRatE 0 (colVals (setColVals d wi wvals) si) hiok
    have h2 : (colVals (setColVals d wi wvals) si).map (fun x => okOr (toRatE x) 0) = svals :=
      Except.ok.inj (hmap.symm.trans hs)
    rw [← h2, hcv1]
    exact List.map_congr_left (fun v _ => okOr_toRatE v)
  have hls : svals.length = d.rows.length := by
    rw [hsvals]
    show ((colVals d si).map Value.toRatD).length = _
    rw [List.length_map, length_colVals]
  have hlv : ((winsorizeScipy svals).map mkNum).length = d.rows.length := by
    rw [List.length_map, length_winsorizeScipy, hls]
  have hlen1 : (setColVals d wi wvals).rows.length = d.rows.length :=
    length_setColVals d wi wvals hlw
  have hbound : ∀ r ∈ (setColVals d wi wvals).rows, si < r.2.length := by
    intro r hr
    obtain ⟨j, hj1, hrj⟩ := List.mem_iff_getElem.mp hr
    have hj : j < d.rows.length := by omega
    have hre : r = rowAt (setColVals d wi wvals) j := by
      rw [rowAt, List.getD_eq_getElem _ _ hj1, hrj]
    rw [hre, rowAt_setColVals d wi wvals j hj hlw]
    simp only [List.length_set]
    rw [hwf (rowAt d j) (rowAt_mem hj)]
    exact colIdx_lt hsi
  have hmain : salaryQ d' si = winsorizeScipy (salaryQ d si) := by
    rw [hd']
    show (colVals (setColVals (setColVals d wi wvals) si
      ((winsorizeScipy svals).map mkNum)) si).map Value.toRatD = _
    rw [colVals_setColVals_self (setColVals d wi wvals) si _
      (by rw [hlv, hlen1]) hbound, List.map_map,
      show Value.toRatD ∘ mkNum = id from funext toRatD_mkNum, List.map_id, hsvals]
  refine ⟨hmain, ?_, ?_, ?_⟩
  · rw [hmain]
    exact winsorizeScipy_eq_clamp _
  · intro x hx
    rw [hmain, winsorizeScipy_eq_clamp] at hx
    obtain ⟨y, hy, rfl⟩ := List.mem_map.mp hx
    have hne : salaryQ d si ≠ [] := by
      intro hnil
      rw [hnil] at hy
      cases hy
    exact clampQ_bounds (pct01_le_pct99 _ hne) y
  · intro j hjl
    have hne : salaryQ d si ≠ [] := by
      intro hnil
      rw [hnil] at hjl
      simp at hjl
    have hclamp : (salaryQ d' si).getD j 0 =
        clampQ (pct01 (salaryQ d si)) (pct99 (salaryQ d si)) ((salaryQ d si).getD j 0) := by
      rw [hmain, winsorizeScipy_eq_clamp]
      exact getD_map_list _ (salaryQ d si) j 0 0 hjl
    refine ⟨?_, ?_, ?_⟩
    · intro hlt
      rw [hclamp]
      unfold clampQ
      rw [if_pos hlt]
    · intro hgt
      rw [hclamp]
      unfold clampQ
      rw [if_neg (not_lt.mpr (le_trans (pct01_le_pct99 _ hne) (le_of_lt hgt))), if_pos hgt]
    · intro hge hle
      rw [hclamp]
      unfold clampQ
      rw [if_neg (not_lt.mpr hge), if_neg (not_lt.mpr hle)]

/-- C3 witness: winsorization of the two-row numeric frame. -/
theorem C3_winsorization_witness :
    ∃ d', preprocess_numbers numbersDF = .ok d' ∧
      salaryQ d' 1 = winsorizeScipy (salaryQ numbersDF 1) ∧
      salaryQ d' 1 = (salaryQ numbersDF 1).map
        (clampQ (pct01 (salaryQ numbersDF 1)) (pct99 (salaryQ numbersDF 1))) := by
  obtain ⟨d', hd'⟩ : ∃ d', preprocess_numbers numbersDF = .ok d' := ⟨_, rfl⟩
  have hmain := C3_salary_winsorization numbersDF d' 0 1 (by decide) (by decide) (by decide) hd'
  exact ⟨d', hd', hmain.1, hmain.2.1⟩

end DsSalaries
